import Mathlib

/-!
Verification of the `vip` repository scripts against their specification.

The repository consists of four command-line Python scripts:

* `live_chat.py`         — fetches a YouTube live-chat replay by scraping the watch page;
* `chat_from_txt.py`     — batch driver that runs `live_chat.py` over a tab-separated manifest;
* `ytpedlp.py`           — playlist extractor that reshapes `yt-dlp` JSON-lines output into a TSV;
* `chat_analysis.py`     — descriptive statistics over the downloaded chat JSON.

Each script is shallowly embedded below.  Effects (HTTP requests, file writes,
directory creation, sleeps, subprocess launches, file copies) are recorded in an
explicit event trace.  Data that reaches the scripts from the outside world
(HTTP status codes, the results of `re.search` over a fetched page, the results
of `json.loads`, the filesystem, subprocess outcomes) is supplied through
environment parameters, so the definitions capture exactly the control flow and
string manipulation performed by the Python code.
-/

set_option linter.unusedVariables false

/-- Observable effects of a script run: directory creation, HTTP GET requests,
file writes, fixed sleeps, subprocess launches, and file copies. -/
inductive Ev
  | mkdir (dir : String)
  | httpGet (url : String)
  | fileWrite (path : String)
  | sleep (seconds : Nat)
  | launch (cmd : List String)
  | copy (src : String) (dst : String)
  deriving DecidableEq, Repr

/-- The URLs of the HTTP GET requests occurring in a trace, in order. -/
def getUrls (tr : List Ev) : List String :=
  tr.filterMap fun e =>
    match e with
    | Ev.httpGet u => some u
    | _ => none

/-- Whether an event is a sleep. -/
def isSleep : Ev → Bool
  | Ev.sleep _ => true
  | _ => false

/-- Whether an event is a subprocess launch. -/
def isLaunch : Ev → Bool
  | Ev.launch _ => true
  | _ => false

/-!
### Python string primitives

Python strings are UTF-8 text; the scripts only use `strip`, single-character
`split`, and `int`/`float` conversion.  These are modelled structurally over
the character list of a `String`, mirroring the Python semantics (Python's
whitespace set restricted to its ASCII part, and underscore digit separators
not modelled).
-/

/-- Whether a character is whitespace for Python's `str.strip()` and number
parsing. -/
def isPySpace (c : Char) : Bool :=
  c == ' ' || c == '\t' || c == '\n' || c == '\r' || c == '\x0b' || c == '\x0c'

/-- Strip leading and trailing whitespace from a character list. -/
def stripWs (cs : List Char) : List Char :=
  ((cs.dropWhile isPySpace).reverse.dropWhile isPySpace).reverse

/-- Python `str.strip()`. -/
def pyStrip (s : String) : String := String.mk (stripWs s.toList)

/-- Python `str.split(sep)` for a single-character separator, on character
lists: empty segments are kept, and the empty string splits to `[""]`. -/
def splitCh (sep : Char) : List Char → List (List Char)
  | [] => [[]]
  | c :: rest =>
    if c = sep then [] :: splitCh sep rest
    else
      match splitCh sep rest with
      | h :: t => (c :: h) :: t
      | [] => [[c]]

/-- Python `str.split(sep)` for a single-character separator. -/
def pySplitChar (sep : Char) (s : String) : List String :=
  (splitCh sep s.toList).map String.mk

/-- The numeric value of a list of decimal digit characters. -/
def digitsVal (ds : List Char) : Nat :=
  ds.foldl (fun a c => 10 * a + (c.toNat - 48)) 0

/-- Scanner for the tail of a digit group with underscore separators: every
underscore must be immediately followed by a digit, and every other character
must be a digit (so no trailing and no doubled underscores). -/
def undScan : List Char → Bool
  | [] => true
  | c :: rest =>
    if c = '_' then
      match rest with
      | c2 :: rest2 => c2.isDigit && undScan rest2
      | [] => false
    else c.isDigit && undScan rest

/-- A digit group as accepted inside Python numeric literals: non-empty,
starting with a digit, with each underscore sitting between digits.  Returns
the digits with the underscores removed. -/
def digitGroup? (ds : List Char) : Option (List Char) :=
  match ds with
  | [] => none
  | c :: _ =>
    if c.isDigit && undScan ds then some (ds.filter (fun x => x != '_')) else none

/-- The numeric value of a valid digit group (underscore separators allowed). -/
def pyDigits? (ds : List Char) : Option Nat := (digitGroup? ds).map digitsVal

/-- Model of Python `int()` on a character-list string: optional surrounding
whitespace, an optional sign, then a digit group with optional underscore
separators (`int("1_0") = 10`). -/
def pyIntChars? (cs : List Char) : Option Int :=
  match stripWs cs with
  | '-' :: ds => (pyDigits? ds).map fun n => -(n : Int)
  | '+' :: ds => (pyDigits? ds).map fun n => ((n : Nat) : Int)
  | ds => (pyDigits? ds).map fun n => ((n : Nat) : Int)

/-- Model of Python `int()` on a string. -/
def pyIntString? (s : String) : Option Int := pyIntChars? s.toList

/-- The maximal leading run of digit/underscore characters and the rest
(the maximal-munch step of Python's numeric literal grammar). -/
def numRun : List Char → List Char × List Char
  | [] => ([], [])
  | c :: rest =>
    if c.isDigit || c == '_' then
      let r := numRun rest
      (c :: r.1, r.2)
    else ([], c :: rest)

namespace LiveChat

/-!
### Embedding of `live_chat.py`

`get_video_info` issues one GET for the watch page, then extracts two embedded
JSON blobs (`ytInitialData` and `ytInitialPlayerResponse`), each via a primary
regex and a fallback regex, each followed by `json.loads`.  Every failure calls
`sys.exit(1)`.  The regex-match results and the parses are environment inputs,
since they depend on the fetched page text.
-/

/-- One element of `liveChatRenderer.actions` as inspected by
`get_continuation_tokens`: `replayChatItemAction = some c` means the action dict
has the key `"replayChatItemAction"`, and `c` is the value of the
`.get("continuation", {}).get("replayContinuationData", {}).get("continuation")`
chain on it (`none` when that chain ends in `None`). -/
structure ChatAction where
  replayChatItemAction : Option (Option String)

/-- The parts of the parsed `ytInitialData` JSON inspected by the script.
`continuationRegexMatch` is the first group of
`re.search('"continuation":"([^"]+)"', json.dumps(yt_data))`.
`liveChatActions` is the `actions` list of
`contents.twoColumnWatchNextResults.conversationBar.liveChatRenderer`
(`none` when that `.get` chain yields a falsy value). -/
structure YtData where
  continuationRegexMatch : Option String
  liveChatActions : Option (List ChatAction)

/-- One entry of `captions.playerCaptionsTracklistRenderer.captionTracks`:
`kind` is `track.get("kind")`, `nameSimpleText` is
`track.get("name", {}).get("simpleText", "")`, and `baseUrl` is `none` when the
`"baseUrl"` key is missing (in which case `track["baseUrl"]` raises `KeyError`). -/
structure CaptionTrack where
  kind : Option String
  nameSimpleText : String
  baseUrl : Option String

/-- The parts of the parsed `ytInitialPlayerResponse` JSON inspected by
`extract_chat_replay_url`: the caption tracks (when the
`captions`/`playerCaptionsTracklistRenderer`/`captionTracks` keys are all
present), whether `"liveChatRenderer"` occurs in `json.dumps(player_data)`, and
`videoDetails.videoId`. -/
structure PlayerData where
  captionTracks : Option (List CaptionTrack)
  dumpHasLiveChatRenderer : Bool
  videoDetailsVideoId : Option String

/-- Python `str.lower()` restricted to ASCII case mapping. -/
def strLower (s : String) : String := String.mk (s.toList.map Char.toLower)

/-- Whether `pat` occurs at the start of `l` (helper for substring search). -/
def isSubAt : List Char → List Char → Bool
  | [], _ => true
  | _ :: _, [] => false
  | a :: as, b :: bs => a == b && isSubAt as bs

/-- Python `sub in s` on character lists. -/
def containsSub (pat : List Char) : List Char → Bool
  | [] => pat.isEmpty
  | b :: bs => isSubAt pat (b :: bs) || containsSub pat bs

/-- The per-track test in `extract_chat_replay_url`:
`track.get("kind") == "asr" or "live_chat" in track.get("name", {}).get("simpleText", "").lower()`. -/
def isLiveChatTrack (t : CaptionTrack) : Bool :=
  t.kind == some "asr" || containsSub "live_chat".toList (strLower t.nameSimpleText).toList

/-- Embedding of `extract_chat_replay_url` (live_chat.py lines 73-93).  The
caption-track loop returns the first matching track's `baseUrl`; a missing
`baseUrl` key raises `KeyError`, which the surrounding `except` turns into
`None`.  Otherwise the alternative method fires when the serialized player data
contains `"liveChatRenderer"` and `videoDetails.videoId` is truthy. -/
def extract_chat_replay_url (p : PlayerData) : Option String :=
  let viaTracks : Option (Option String) :=
    match p.captionTracks with
    | some ts =>
      match ts.find? isLiveChatTrack with
      | some t => some t.baseUrl
      | none => none
    | none => none
  match viaTracks with
  | some r => r
  | none =>
    if p.dumpHasLiveChatRenderer then
      match p.videoDetailsVideoId with
      | some vid =>
        if vid = "" then none
        else some ("https://www.youtube.com/live_chat_replay?v=" ++ vid)
      | none => none
    else none

/-- The `for action in actions` loop of `get_continuation_tokens`: the first
action containing the key `"replayChatItemAction"` determines the result (the
loop returns from inside, even when the `.get` chain yields `None`). -/
def firstReplayContinuation : List ChatAction → Option String
  | [] => none
  | a :: rest =>
    match a.replayChatItemAction with
    | some c => c
    | none => firstReplayContinuation rest

/-- Embedding of `get_continuation_tokens` (live_chat.py lines 95-114). -/
def get_continuation_tokens (y : YtData) : Option String :=
  match y.continuationRegexMatch with
  | some c => some c
  | none =>
    match y.liveChatActions with
    | some acts => firstReplayContinuation acts
    | none => none

/-- Environment of one `fetch_chat_replay` run: the HTTP status of the
watch-page request, the four regex-match results (primary and `window[...]`
fallback variants for `ytInitialData` and `ytInitialPlayerResponse`), the two
`json.loads` parses, the HTTP status of the chat-data request, whether the
output directory already exists, and whether saving the response succeeds. -/
structure FetchEnv where
  pageStatus : Nat
  dataVarMatch : Option String
  dataWinMatch : Option String
  playerVarMatch : Option String
  playerWinMatch : Option String
  parseYtData : String → Option YtData
  parsePlayerData : String → Option PlayerData
  chatStatus : Nat
  dirExists : Bool
  saveOk : Bool

/-- The watch-page URL `https://www.youtube.com/watch?v={video_id}`. -/
def watchUrl (videoId : String) : String := "https://www.youtube.com/watch?v=" ++ videoId

/-- The `if not data_match: data_match = re.search(fallback, ...)` pattern:
the primary match when present, otherwise the fallback. -/
def firstMatch (a b : Option String) : Option String :=
  match a with
  | some s => some s
  | none => b

/-- Control-flow outcome of `get_video_info` (live_chat.py lines 25-71): every
failure — non-200 status, neither regex variant matching, or a JSON decode
error — calls `sys.exit(1)`, modelled as `Except.error`. -/
def get_video_info_outcome (env : FetchEnv) : Except Unit (YtData × PlayerData) :=
  if env.pageStatus ≠ 200 then Except.error ()
  else
    match firstMatch env.dataVarMatch env.dataWinMatch with
    | none => Except.error ()
    | some ds =>
      match env.parseYtData ds with
      | none => Except.error ()
      | some yt =>
        match firstMatch env.playerVarMatch env.playerWinMatch with
        | none => Except.error ()
        | some ps =>
          match env.parsePlayerData ps with
          | none => Except.error ()
          | some pd => Except.ok (yt, pd)

/-- Embedding of `get_video_info`: it performs exactly one HTTP GET (for the
watch page) and then the pure extraction of `get_video_info_outcome`. -/
def get_video_info (videoId : String) (env : FetchEnv) :
    Except Unit (YtData × PlayerData) × List Ev :=
  (get_video_info_outcome env, [Ev.httpGet (watchUrl videoId)])

/-- The reconstructed replay endpoint
`https://www.youtube.com/live_chat_replay/get_live_chat_replay?continuation={token}`. -/
def chatReplayUrlOf (token : String) : String :=
  "https://www.youtube.com/live_chat_replay/get_live_chat_replay?continuation=" ++ token

/-- The continuation fallback in `fetch_chat_replay`: a truthy token yields the
reconstructed replay endpoint URL, otherwise the run errors out. -/
def continuationUrl (y : YtData) : Option String :=
  match get_continuation_tokens y with
  | some c => if c = "" then none else some (chatReplayUrlOf c)
  | none => none

/-- Result of a `fetch_chat_replay` run: `sys.exit(code)` or a saved file. -/
inductive RunResult
  | exit (code : Nat)
  | success (outputFile : String)
  deriving DecidableEq, Repr

/-- The chat-URL selection in `fetch_chat_replay` (live_chat.py lines 128-137):
the URL extracted from the player data when truthy, otherwise the
continuation-token endpoint. -/
def chatUrlChoice (yt : YtData) (pd : PlayerData) : Option String :=
  match extract_chat_replay_url pd with
  | some u => if u = "" then continuationUrl yt else some u
  | none => continuationUrl yt

/-- Embedding of `fetch_chat_replay` (live_chat.py lines 116-174): create the
output directory if missing, fetch the video info, compute the chat URL (the
player-data URL when truthy, otherwise the continuation-token endpoint), issue
the single chat-data GET, and save the response.  `os.path.join` is modelled as
`dir ++ "/" ++ name`.  A save exception exits 1 before a complete write. -/
def fetch_chat_replay (videoId : String) (env : FetchEnv) (outputDir : String) :
    RunResult × List Ev :=
  let dirEvs : List Ev := if env.dirExists then [] else [Ev.mkdir outputDir]
  let infoEvs := (get_video_info videoId env).2
  match (get_video_info videoId env).1 with
  | Except.error _ => (RunResult.exit 1, dirEvs ++ infoEvs)
  | Except.ok (yt, pd) =>
    match chatUrlChoice yt pd with
    | none => (RunResult.exit 1, dirEvs ++ infoEvs)
    | some chatUrl =>
      let evs := dirEvs ++ infoEvs ++ [Ev.httpGet chatUrl]
      if env.chatStatus ≠ 200 then (RunResult.exit 1, evs)
      else
        let outputFile := outputDir ++ "/" ++ videoId ++ "_live_chat_replay.json"
        if env.saveOk then (RunResult.success outputFile, evs ++ [Ev.fileWrite outputFile])
        else (RunResult.exit 1, evs)

end LiveChat

namespace ChatFromTxt

/-!
### Embedding of `chat_from_txt.py`

The filesystem is a predicate on paths.  Subprocess runs of `live_chat.py` are
supplied by an oracle mapping the video id to an outcome, which also reports
which of the two possible output files exist in the `json` directory after the
run.  The asynchronous SIGINT flag is an oracle indexed by how many times the
`interrupted` global has been read so far.
-/

/-- A filesystem: which paths (files and directories) exist. -/
abbrev FS := String → Bool

/-- The filesystem after a path has been created. -/
def setFile (fs : FS) (p : String) : FS :=
  fun q => if q = p then true else fs q

/-- One manifest row as built by `read_text_file`. -/
structure Video where
  position : String
  videoId : String
  title : String
  deriving DecidableEq, Repr

/-- The standard output name `{video_id}_live_chat.json`. -/
def expectedName (videoId : String) : String := videoId ++ "_live_chat.json"

/-- The `live_chat.py` output name `{video_id}_live_chat_replay.json`. -/
def replayName (videoId : String) : String := videoId ++ "_live_chat_replay.json"

/-- The four hardcoded resume candidates, in the order both
`run_live_chat_script` and `process_video` scan them (`os.path.join("json", x)`
is `"json/" ++ x`). -/
def possible_locations (videoId : String) : List String :=
  [expectedName videoId, replayName videoId,
   "json/" ++ expectedName videoId, "json/" ++ replayName videoId]

/-- Index lookup through `headers_map = {header: idx for idx, header in
enumerate(headers)}`: a later duplicate header overwrites an earlier one, so
the map holds the last index of each header. -/
def lastIdx (headers : List String) (h : String) : Nat :=
  match headers.reverse.findIdx? (fun x => x == h) with
  | some i => headers.length - 1 - i
  | none => 0

/-- The per-line body of the data-row loop in `read_text_file`: split the
stripped line on tabs, skip it when it has too few columns, otherwise build the
record from the three column indices. -/
def rowOf (position_idx video_id_idx title_idx : Nat) (line : String) : Option Video :=
  let columns := pySplitChar '\t' (pyStrip line)
  if columns.length ≤ max position_idx (max video_id_idx title_idx) then none
  else
    some { position := columns.getD position_idx ""
         , videoId := columns.getD video_id_idx ""
         , title := columns.getD title_idx "" }

/-- Embedding of `read_text_file` (chat_from_txt.py lines 47-98).  The input is
`none` for a missing file and otherwise the list of lines of the file; every
failure path calls `sys.exit(1)`. -/
def read_text_file (fileLines : Option (List String)) : Except Nat (List Video) :=
  match fileLines with
  | none => Except.error 1
  | some rawLines =>
    match rawLines.filter (fun l => pyStrip l != "") with
    | [] => Except.error 1
    | headerLine :: dataLines =>
      let headers := pySplitChar '\t' (pyStrip headerLine)
      if headers.contains "Position" && headers.contains "Video ID" && headers.contains "Title" then
        Except.ok (dataLines.filterMap
          (rowOf (lastIdx headers "Position") (lastIdx headers "Video ID")
            (lastIdx headers "Title")))
      else Except.error 1

/-- Outcome of one `subprocess.run(["python3", "live_chat.py", ...])` call:
normal exit 0 (reporting which output files exist in `json/` afterwards), a
timeout, a non-zero exit (`CalledProcessError`, raised because of `check=True`),
or any other exception. -/
inductive DlOutcome
  | ok (replayCreated : Bool) (expectedCreated : Bool)
  | timeoutExpired
  | calledProcessError
  | otherError
  deriving DecidableEq, Repr

/-- The command line built by `run_live_chat_script`: ids starting with a
hyphen are protected by a `--` separator. -/
def liveChatCmd (videoId : String) : List String :=
  if videoId.startsWith "-" then ["python3", "live_chat.py", "--", videoId, "-o", "json"]
  else ["python3", "live_chat.py", videoId, "-o", "json"]

/-- The `if not os.path.exists("json"): os.makedirs("json")` step. -/
def ensureJsonDir (fs : FS) : FS × List Ev :=
  if fs "json" then (fs, []) else (setFile fs "json", [Ev.mkdir "json"])

/-- Embedding of `run_live_chat_script` (chat_from_txt.py lines 100-178).
Unless `force` is set, the first existing resume candidate short-circuits the
download: candidates already under the standard name are returned as-is, others
are copied to the standard name in the same directory (`os.path.dirname(p) = ""`
holds exactly when `p` contains no slash).  Otherwise the subprocess is
launched; on a normal exit the `json/{id}_live_chat_replay.json` output is
copied to `json/{id}_live_chat.json`; a timeout, a non-zero exit, any other
exception, or a missing output file yields `none`. -/
def run_live_chat_script (dl : String → DlOutcome) (fs : FS) (videoId : String)
    (force : Bool) : Option String × FS × List Ev :=
  let expected := expectedName videoId
  let replay := replayName videoId
  let found := if force then none else (possible_locations videoId).find? fs
  match found with
  | some filePath =>
    if filePath = expected ∨ filePath = "json/" ++ expected then (some filePath, fs, [])
    else
      let target := if filePath.contains '/' then "json/" ++ expected else expected
      (some target, setFile fs target, [Ev.copy filePath target])
  | none =>
    let dirStep := ensureJsonDir fs
    let fs1 := dirStep.1
    let evs1 := dirStep.2
    let cmd := liveChatCmd videoId
    match dl videoId with
    | DlOutcome.ok replayCreated expectedCreated =>
      let fs2 := if replayCreated then setFile fs1 ("json/" ++ replay) else fs1
      let fs3 := if expectedCreated then setFile fs2 ("json/" ++ expected) else fs2
      if fs3 ("json/" ++ replay) then
        (some ("json/" ++ expected), setFile fs3 ("json/" ++ expected),
         evs1 ++ [Ev.launch cmd, Ev.copy ("json/" ++ replay) ("json/" ++ expected)])
      else if fs3 ("json/" ++ expected) then
        (some ("json/" ++ expected), fs3, evs1 ++ [Ev.launch cmd])
      else (none, fs3, evs1 ++ [Ev.launch cmd])
    | _ => (none, fs1, evs1 ++ [Ev.launch cmd])

/-- Embedding of `process_video` (chat_from_txt.py lines 180-228).  Unless
`force` is set, the first existing resume candidate makes the function return
`True` without a download, after copying the file to `json/{id}_live_chat.json`
when it is not already at that path.  Otherwise `run_live_chat_script` decides
the result: `True` exactly when it returned a path. -/
def process_video (dl : String → DlOutcome) (fs : FS) (force : Bool) (v : Video) :
    Bool × FS × List Ev :=
  let expectedPath := "json/" ++ expectedName v.videoId
  let found := if force then none else (possible_locations v.videoId).find? fs
  match found with
  | some filePath =>
    if filePath = expectedPath then (true, fs, [])
    else
      let dirStep := ensureJsonDir fs
      (true, setFile dirStep.1 expectedPath, dirStep.2 ++ [Ev.copy filePath expectedPath])
  | none =>
    let r := run_live_chat_script dl fs v.videoId force
    (r.1.isSome, r.2.1, r.2.2)

/-- Embedding of the whole-batch loop of `main` (chat_from_txt.py lines
296-312).  `intr k` is the value of the `interrupted` flag at its `k`-th read:
the loop head breaks on it, and the fixed `time.sleep(1)` between videos is
guarded by a second read. -/
def mainLoop (intr : Nat → Bool) (dl : String → DlOutcome) (force : Bool) :
    FS → Nat → List Video → Nat × FS × List Ev
  | fs, _, [] => (0, fs, [])
  | fs, k, v :: rest =>
    if intr k then (0, fs, [])
    else
      let step := process_video dl fs force v
      let evs2 := if intr (k + 1) then step.2.2 else step.2.2 ++ [Ev.sleep 1]
      let recd := mainLoop intr dl force step.2.1 (k + 2) rest
      ((if step.1 then 1 else 0) + recd.1, recd.2.1, evs2 ++ recd.2.2)

/-- The `--start` filter of `main` (chat_from_txt.py lines 283-295): keep the
videos whose position parses as an integer at least `start`; rows with
non-integer positions are skipped. -/
def videosToProcess (start : Option Int) (videos : List Video) : List Video :=
  match start with
  | none => videos
  | some s =>
    videos.filter fun v =>
      match pyIntString? v.position with
      | some p => decide (s ≤ p)
      | none => false

/-- The run of `main` without `--position`: the (optionally `--start`-filtered)
video list is processed by the sequential loop. -/
def mainNoPosition (intr : Nat → Bool) (dl : String → DlOutcome) (force : Bool)
    (fs : FS) (start : Option Int) (videos : List Video) : Nat × FS × List Ev :=
  mainLoop intr dl force fs 0 (videosToProcess start videos)

/-- Scan for sequentiality of subprocess use: `true` while no two launch events
occur without a sleep event strictly between them.  The Boolean argument records
whether a launch has been seen since the last sleep. -/
def launchScan : List Ev → Bool → Bool
  | [], _ => true
  | Ev.launch _ :: rest, seen => if seen then false else launchScan rest true
  | Ev.sleep _ :: rest, _ => launchScan rest false
  | _ :: rest, seen => launchScan rest seen

end ChatFromTxt

namespace YtDlp

/-!
### Embedding of `ytpedlp.py`

Python values reaching the format helpers from the parsed JSON are modelled by
`PyV` (`None`, an integer, or a string).  `datetime.fromtimestamp(...).strftime`
depends on the local timezone, so it is an environment function `tz`.
-/

/-- A Python value as inspected by the format helpers. -/
inductive PyV
  | pynone
  | pyint (n : Int)
  | pystr (s : String)
  deriving DecidableEq, Repr

/-- Python truthiness of a `PyV`. -/
def pyTruthy : PyV → Bool
  | PyV.pynone => false
  | PyV.pyint n => n != 0
  | PyV.pystr s => s != ""

/-- Python `str()` of a `PyV`. -/
def pyStr : PyV → String
  | PyV.pynone => "None"
  | PyV.pyint n => toString n
  | PyV.pystr s => s

/-- Python `int()` of a `PyV` (`none` models `ValueError`/`TypeError`). -/
def pyIntOfV : PyV → Option Int
  | PyV.pynone => none
  | PyV.pyint n => some n
  | PyV.pystr s => pyIntString? s

/-- Whether a character opens the exponent part of a float literal. -/
def isExpChar (c : Char) : Bool := c == 'e' || c == 'E'

/-- The exponent part of a float literal: an optional sign and a digit group. -/
def expVal? (cs : List Char) : Option Int :=
  match cs with
  | '-' :: r => (pyDigits? r).map fun n => -(n : Int)
  | '+' :: r => (pyDigits? r).map fun n => ((n : Nat) : Int)
  | r => (pyDigits? r).map fun n => ((n : Nat) : Int)

/-- Whether a string is one of the infinity forms accepted by Python
`float()`: optional surrounding whitespace, an optional sign, then `inf` or
`infinity` in any letter case.  On these the source's `int(float(...))` raises
an uncaught `OverflowError`, aborting the script, so the theorems below
exclude them. -/
def isInfForm (cs : List Char) : Bool :=
  let t := stripWs cs
  let u :=
    match t with
    | '-' :: r => r
    | '+' :: r => r
    | _ => t
  let l := u.map Char.toLower
  l == "inf".toList || l == "infinity".toList

/-- Model of Python `int(float(s))` on a character-list string: optional
surrounding whitespace, an optional sign, then a decimal literal
`D [. D] [(e|E) [sign] D]` where each `D` is a digit group with optional
underscore separators (the integer or fractional group may be empty when the
other is present); the exact decimal value is truncated toward zero.
Not modelled: the IEEE-double rounding of `float()` — the exact value is
truncated instead, and the theorems below quantify only over inputs where the
two agree (magnitudes below `2 ^ 53`); the infinity forms, on which the source
raises an uncaught `OverflowError` (see `isInfForm`); non-ASCII digits.
`float("nan")` is faithful without special handling: `int()` on it raises
`ValueError`, which the source catches, and the parser rejects it too. -/
def signSplit (t : List Char) : Int × List Char :=
  match t with
  | '-' :: r => (-1, r)
  | '+' :: r => (1, r)
  | _ => (1, t)

def pyFloatTruncChars? (cs : List Char) : Option Int :=
  let su := signSplit (stripWs cs)
  let sign := su.1
  let ip := numRun su.2
  let intRun := ip.1
  let mantissa? : Option (Nat × Nat × List Char) :=
    match ip.2 with
    | [] => (pyDigits? intRun).map fun i => (i, 0, ([] : List Char))
    | '.' :: r2 =>
      let fp := numRun r2
      let fracRun := fp.1
      match intRun, fracRun with
      | [], [] => none
      | [], fr => (digitGroup? fr).map fun fd => (digitsVal fd, fd.length, fp.2)
      | ir, [] => (pyDigits? ir).map fun i => (i, 0, fp.2)
      | ir, fr =>
        match digitGroup? ir, digitGroup? fr with
        | some id, some fd =>
          some (digitsVal id * 10 ^ fd.length + digitsVal fd, fd.length, fp.2)
        | _, _ => none
    | r2 => (pyDigits? intRun).map fun i => (i, 0, r2)
  match mantissa? with
  | none => none
  | some (m, k, tail) =>
    let eVal : Option Int :=
      match tail with
      | [] => some 0
      | c :: r3 => if isExpChar c then expVal? r3 else none
    match eVal with
    | none => none
    | some e =>
      let shift : Int := e - (k : Int)
      let mag : Nat := if 0 ≤ shift then m * 10 ^ shift.toNat else m / 10 ^ (-shift).toNat
      some (sign * (mag : Int))

/-- Model of Python `int(float(s))` on a string (see `pyFloatTruncChars?`). -/
def pyFloatTrunc? (s : String) : Option Int := pyFloatTruncChars? s.toList

/-- Python `int(float(x))` of a `PyV`.  For an integer input `int(float(n))` is
modelled as `n`, which is exact for `|n| < 2 ^ 53` (the range over which the
theorems below quantify); beyond that `float()` rounds. -/
def pyFloatTruncOfV : PyV → Option Int
  | PyV.pynone => none
  | PyV.pyint n => some n
  | PyV.pystr s => pyFloatTrunc? s

/-- Python `f"{n:02d}"` for the minute/second components (which the floor
divmod chain keeps in `[0, 60)`). -/
def pad2Int (n : Int) : String :=
  if 0 ≤ n ∧ n < 10 then "0" ++ toString n else toString n

/-- Python `f"{n:02d}"` for a natural number. -/
def pad2 (n : Nat) : String :=
  if n < 10 then "0" ++ toString n else toString n

/-- Embedding of `format_duration` (ytpedlp.py lines 57-72).  A falsy input
(including the integer 0) is `"N/A"`; otherwise `int(float(...))` feeds two
`divmod`s (Python floor division and modulus, which agree with `Int.ediv` and
`Int.emod` for positive divisors); on `ValueError`/`TypeError` the input's
`str()` is returned. -/
def format_duration (d : PyV) : String :=
  if pyTruthy d then
    match pyFloatTruncOfV d with
    | none => pyStr d
    | some seconds =>
      let hours := seconds.ediv 3600
      let remainder := seconds.emod 3600
      let minutes := remainder.ediv 60
      let secs := remainder.emod 60
      if 0 < hours then toString hours ++ ":" ++ pad2Int minutes ++ ":" ++ pad2Int secs
      else toString minutes ++ ":" ++ pad2Int secs
  else "N/A"

/-- Helper for `f"{n:,}"`: insert a comma after every three digits, operating
on the least-significant-first digit list; the counter records how many digits
have been emitted since the last comma. -/
def commaRevAux : List Char → Nat → List Char
  | [], _ => []
  | c :: rest, k =>
    if k = 3 then ',' :: c :: commaRevAux rest 1
    else c :: commaRevAux rest (k + 1)

/-- Python `f"{n:,}"`: the decimal digits of `n` grouped in threes by commas. -/
def commafy (n : Int) : String :=
  (if n < 0 then "-" else "")
    ++ String.mk ((commaRevAux (toString n.natAbs).toList.reverse 0).reverse)

/-- Embedding of `format_view_count` (ytpedlp.py lines 50-55): a successful
`int()` is comma-formatted; otherwise `view_count or "N/A"` (so a falsy input
gives `"N/A"`, and a non-numeric truthy one is passed through). -/
def format_view_count (v : PyV) : String :=
  match pyIntOfV v with
  | some n => commafy n
  | none => if pyTruthy v then pyStr v else "N/A"

/-- Embedding of `format_date` (ytpedlp.py lines 74-83): a falsy timestamp is
`"N/A"`; otherwise `int()` feeds `datetime.fromtimestamp(...).strftime`,
modelled by the timezone-dependent environment function `tz`; on
`ValueError`/`TypeError` the input's `str()` is returned. -/
def format_date (tz : Int → String) (v : PyV) : String :=
  if pyTruthy v then
    match pyIntOfV v with
    | some n => tz n
    | none => pyStr v
  else "N/A"

/-- The fields of one parsed `yt-dlp` JSON line that the extractor reads:
`Option` fields model `video_data.get(key, "N/A")` with a missing key, and the
`PyV` fields model `video_data.get(key)` (missing keys give `pynone`). -/
structure VDat where
  id : Option String
  title : Option String
  timestamp : PyV
  channel : Option String
  view_count : PyV
  comment_count : PyV
  duration : PyV
  channel_id : Option String
  deriving Repr

/-- One output record of `get_playlist_videos_with_ytdlp`. -/
structure Record where
  position : Nat
  videoId : String
  title : String
  publishedAt : String
  channelTitle : String
  viewCount : String
  commentCount : String
  duration : String
  channel_id : String
  deriving DecidableEq, Repr

/-- The record built for the line at 0-based index `pos - 1` (ytpedlp.py lines
122-132). -/
def mkRecord (tz : Int → String) (pos : Nat) (v : VDat) : Record :=
  { position := pos
  , videoId := v.id.getD "N/A"
  , title := v.title.getD "N/A"
  , publishedAt := format_date tz v.timestamp
  , channelTitle := v.channel.getD "N/A"
  , viewCount := format_view_count v.view_count
  , commentCount := format_view_count v.comment_count
  , duration := format_duration v.duration
  , channel_id := v.channel_id.getD "N/A" }

/-- One line of `yt-dlp` stdout as seen by the loop: whitespace-only (the
`if not line.strip(): continue` case), JSON that fails to parse (skipped with a
warning), or parsed video data. -/
inductive YLine
  | blank
  | badJson
  | good (v : VDat)

/-- Whether a stdout line parses as JSON. -/
def isGoodLine : YLine → Bool
  | YLine.good _ => true
  | _ => false

/-- The `for i, line in enumerate(process.stdout.splitlines())` loop (ytpedlp.py
lines 115-139): `i` counts every line, including blank and unparseable ones,
and each parsed line appends one record with position `i + 1`. -/
def processLinesAux (tz : Int → String) : Nat → List YLine → List Record
  | _, [] => []
  | i, l :: rest =>
    match l with
    | YLine.blank => processLinesAux tz (i + 1) rest
    | YLine.badJson => processLinesAux tz (i + 1) rest
    | YLine.good v => mkRecord tz (i + 1) v :: processLinesAux tz (i + 1) rest

/-- Embedding of the non-fallback path of `get_playlist_videos_with_ytdlp`
(ytpedlp.py lines 110-151): reshape the stdout lines into records. -/
def get_playlist_videos (tz : Int → String) (stdout : List YLine) : List Record :=
  processLinesAux tz 0 stdout

/-- The nine header columns written by `save_videos_to_file`. -/
def headerFields : List String :=
  ["Position", "Video ID", "Title", "Published Date", "Channel", "Views",
   "Comments", "Duration", "Channel ID"]

/-- The nine field values written for one record, in write order. -/
def recordFields (r : Record) : List String :=
  [toString r.position, r.videoId, r.title, r.publishedAt, r.channelTitle,
   r.viewCount, r.commentCount, r.duration, r.channel_id]

/-- One tab-separated output line followed by a newline. -/
def tsvLine (fields : List String) : String :=
  String.intercalate "\t" fields ++ "\n"

/-- Embedding of `save_videos_to_file` (ytpedlp.py lines 226-251) as the rows
of fields it writes: the header row followed by one row per record. -/
def save_videos_rows (videos : List Record) : List (List String) :=
  headerFields :: videos.map recordFields

/-- The exact text written by `save_videos_to_file`: the sequence of `f.write`
calls concatenates each row's fields separated by tabs and ended by a newline. -/
def save_videos_to_file (videos : List Record) : String :=
  String.join ((save_videos_rows videos).map tsvLine)

end YtDlp

namespace ChatAnalysis

/-!
### Embedding of `parse_time` from `chat_analysis.py`

Python strings are modelled as character lists here, so that the `split(':')`
structure is amenable to induction.  The input may also be a non-string value
(a malformed `time_in_seconds` entry), on which `time_str.startswith` raises
and the bare `except` returns 0.
-/

/-- The argument of `parse_time`: a string, or any non-string value. -/
inductive TimeVal
  | str (cs : List Char)
  | nonstr

/-- The sign step of `parse_time`: `if time_str.startswith('-')` strips the
leading `-` and fixes the sign `-1`, otherwise the sign is `1`. -/
def timeSign : List Char → Int × List Char
  | '-' :: rest => (-1, rest)
  | cs => (1, cs)

/-- Embedding of `parse_time` (chat_analysis.py lines 38-55): an optional `-`
prefix fixes the sign, the rest splits on `:`; two parts give `MM:SS`, three
give `HH:MM:SS`, anything else returns 0, and any exception (a non-string
input, or `int()` failing on a part) returns 0 through the bare `except`. -/
def parse_time : TimeVal → Int
  | TimeVal.nonstr => 0
  | TimeVal.str cs =>
    let sign := (timeSign cs).1
    let t := (timeSign cs).2
    match splitCh ':' t with
    | [p0, p1] =>
      match pyIntChars? p0, pyIntChars? p1 with
      | some a, some b => sign * (a * 60 + b)
      | _, _ => 0
    | [p0, p1, p2] =>
      match pyIntChars? p0, pyIntChars? p1, pyIntChars? p2 with
      | some a, some b, some c => sign * (a * 3600 + b * 60 + c)
      | _, _, _ => 0
    | _ => 0

end ChatAnalysis

/-!
## Theorems

Helper lemmas come first; the claim theorems are marked with their claim ids.
-/

namespace LiveChat

theorem get_video_info_outcome_err (env : FetchEnv)
    (h : env.pageStatus ≠ 200 ∨ (env.dataVarMatch = none ∧ env.dataWinMatch = none) ∨
         (env.playerVarMatch = none ∧ env.playerWinMatch = none)) :
    get_video_info_outcome env = Except.error () := by
  unfold get_video_info_outcome
  rcases h with h | ⟨h1, h2⟩ | ⟨h1, h2⟩
  · rw [if_pos h]
  · rw [h1, h2]
    split
    · rfl
    · rfl
  · rw [h1, h2]
    split
    · rfl
    · split
      · rfl
      · split
        · rfl
        · rfl

/-- The tail of the run trace after the mandatory watch-page request: nothing
on an early exit, else the single chat-data request followed by the write. -/
def fetchTailEvs (videoId outputDir : String) (env : FetchEnv) : List Ev :=
  match get_video_info_outcome env with
  | Except.error _ => []
  | Except.ok (yt, pd) =>
    match chatUrlChoice yt pd with
    | none => []
    | some chatUrl =>
      Ev.httpGet chatUrl ::
        (if env.chatStatus ≠ 200 then []
         else if env.saveOk then
           [Ev.fileWrite (outputDir ++ "/" ++ videoId ++ "_live_chat_replay.json")]
         else [])

theorem fetch_trace_eq (videoId outputDir : String) (env : FetchEnv) :
    (fetch_chat_replay videoId env outputDir).2 =
      (if env.dirExists then [] else [Ev.mkdir outputDir]) ++
        Ev.httpGet (watchUrl videoId) :: fetchTailEvs videoId outputDir env := by
  unfold fetch_chat_replay fetchTailEvs get_video_info
  cases hout : get_video_info_outcome env with
  | error a => simp [hout]
  | ok p =>
    obtain ⟨yt, pd⟩ := p
    cases hurl : chatUrlChoice yt pd with
    | none => simp [hout, hurl]
    | some chatUrl =>
      by_cases hc : env.chatStatus = 200
      · by_cases hs : env.saveOk <;> simp [hout, hurl, hc, hs]
      · simp [hout, hurl, hc]

theorem fetchTail_getUrls_len_le_one (videoId outputDir : String) (env : FetchEnv) :
    (getUrls (fetchTailEvs videoId outputDir env)).length ≤ 1 := by
  unfold fetchTailEvs
  cases hout : get_video_info_outcome env with
  | error a => simp [hout, getUrls]
  | ok p =>
    obtain ⟨yt, pd⟩ := p
    cases hurl : chatUrlChoice yt pd with
    | none => simp [hout, hurl, getUrls]
    | some chatUrl =>
      by_cases hc : env.chatStatus = 200
      · by_cases hs : env.saveOk <;> simp [hout, hurl, hc, hs, getUrls]
      · simp [hout, hurl, hc, getUrls]

theorem fetch_getUrls_len_le_two (videoId outputDir : String) (env : FetchEnv) :
    (getUrls (fetch_chat_replay videoId env outputDir).2).length ≤ 2 := by
  have htail := fetchTail_getUrls_len_le_one videoId outputDir env
  rw [fetch_trace_eq]
  by_cases hd : env.dirExists <;> simp [hd, getUrls] at htail ⊢ <;> omega

theorem fetchTail_no_sleep (videoId outputDir : String) (env : FetchEnv) (n : Nat) :
    Ev.sleep n ∉ fetchTailEvs videoId outputDir env := by
  unfold fetchTailEvs
  cases hout : get_video_info_outcome env with
  | error a => simp [hout]
  | ok p =>
    obtain ⟨yt, pd⟩ := p
    cases hurl : chatUrlChoice yt pd with
    | none => simp [hout, hurl]
    | some chatUrl =>
      by_cases hc : env.chatStatus = 200
      · by_cases hs : env.saveOk <;> simp [hout, hurl, hc, hs]
      · simp [hout, hurl, hc]

theorem fetch_no_sleep (videoId outputDir : String) (env : FetchEnv) (n : Nat) :
    Ev.sleep n ∉ (fetch_chat_replay videoId env outputDir).2 := by
  have htail := fetchTail_no_sleep videoId outputDir env n
  rw [fetch_trace_eq]
  by_cases hd : env.dirExists <;> simp [hd, htail]

theorem fetch_result_cases (videoId outputDir : String) (env : FetchEnv) :
    (fetch_chat_replay videoId env outputDir).1 = RunResult.exit 1 ∨
    ∃ f, (fetch_chat_replay videoId env outputDir).1 = RunResult.success f := by
  unfold fetch_chat_replay get_video_info
  cases hout : get_video_info_outcome env with
  | error a => simp [hout]
  | ok p =>
    obtain ⟨yt, pd⟩ := p
    cases hurl : chatUrlChoice yt pd with
    | none => simp [hout, hurl]
    | some chatUrl =>
      by_cases hc : env.chatStatus = 200
      · by_cases hs : env.saveOk <;> simp [hout, hurl, hc, hs]
      · simp [hout, hurl, hc]

theorem fetch_gviFail_aborts (videoId outputDir : String) (env : FetchEnv)
    (h : env.pageStatus ≠ 200 ∨ (env.dataVarMatch = none ∧ env.dataWinMatch = none) ∨
         (env.playerVarMatch = none ∧ env.playerWinMatch = none)) :
    (fetch_chat_replay videoId env outputDir).1 = RunResult.exit 1 ∧
    ∀ p, Ev.fileWrite p ∉ (fetch_chat_replay videoId env outputDir).2 := by
  have hout := get_video_info_outcome_err env h
  have htail : fetchTailEvs videoId outputDir env = [] := by
    unfold fetchTailEvs
    rw [hout]
  constructor
  · unfold fetch_chat_replay get_video_info
    simp [hout]
  · intro p
    rw [fetch_trace_eq, htail]
    by_cases hd : env.dirExists <;> simp [hd]

theorem fetch_chatFail_exit (videoId outputDir : String) (env : FetchEnv)
    (hcs : env.chatStatus ≠ 200) :
    (fetch_chat_replay videoId env outputDir).1 = RunResult.exit 1 := by
  unfold fetch_chat_replay get_video_info
  cases hout : get_video_info_outcome env with
  | error a => simp [hout]
  | ok p =>
    obtain ⟨yt, pd⟩ := p
    cases hurl : chatUrlChoice yt pd with
    | none => simp [hout, hurl]
    | some chatUrl => simp [hout, hurl, hcs]

theorem fetchTail_no_write_chatFail (videoId outputDir : String) (env : FetchEnv)
    (hcs : env.chatStatus ≠ 200) (p : String) :
    Ev.fileWrite p ∉ fetchTailEvs videoId outputDir env := by
  unfold fetchTailEvs
  cases hout : get_video_info_outcome env with
  | error a => simp [hout]
  | ok q =>
    obtain ⟨yt, pd⟩ := q
    cases hurl : chatUrlChoice yt pd with
    | none => simp [hout, hurl]
    | some chatUrl => simp [hout, hurl, hcs]

/-- C1: In the live-chat fetch script, a single failure aborts the whole run:
if any HTTP response has a status code other than 200 — the watch-page request
or the chat-data request — or neither regex variant matches for
`ytInitialData`, or neither regex variant matches for
`ytInitialPlayerResponse`, then `fetch_chat_replay` terminates with exit
status 1 and its trace contains no file write. -/
theorem live_chat_single_failure_aborts (videoId outputDir : String) (env : FetchEnv)
    (h : env.pageStatus ≠ 200 ∨ env.chatStatus ≠ 200 ∨
         (env.dataVarMatch = none ∧ env.dataWinMatch = none) ∨
         (env.playerVarMatch = none ∧ env.playerWinMatch = none)) :
    (fetch_chat_replay videoId env outputDir).1 = RunResult.exit 1 ∧
    ∀ p, Ev.fileWrite p ∉ (fetch_chat_replay videoId env outputDir).2 := by
  rcases h with hp | hc | hd | hpl
  · exact fetch_gviFail_aborts videoId outputDir env (Or.inl hp)
  · refine ⟨fetch_chatFail_exit videoId outputDir env hc, ?_⟩
    intro p
    rw [fetch_trace_eq]
    have htail := fetchTail_no_write_chatFail videoId outputDir env hc p
    by_cases hd2 : env.dirExists <;> simp [hd2, htail]
  · exact fetch_gviFail_aborts videoId outputDir env (Or.inr (Or.inl hd))
  · exact fetch_gviFail_aborts videoId outputDir env (Or.inr (Or.inr hpl))

/-- Concrete environment whose watch-page request fails with status 404. -/
def envPageFail : FetchEnv :=
  { pageStatus := 404, dataVarMatch := none, dataWinMatch := none
  , playerVarMatch := none, playerWinMatch := none
  , parseYtData := fun _ => none, parsePlayerData := fun _ => none
  , chatStatus := 200, dirExists := true, saveOk := true }

/-- Concrete environment that parses both blobs, reaches the chat-data request
through a continuation token, and receives a 503 on it. -/
def envChatFail503 : FetchEnv :=
  { pageStatus := 200, dataVarMatch := some "dataJson", dataWinMatch := none
  , playerVarMatch := some "playerJson", playerWinMatch := none
  , parseYtData := fun _ =>
      some { continuationRegexMatch := some "TOKEN123", liveChatActions := none }
  , parsePlayerData := fun _ =>
      some { captionTracks := none, dumpHasLiveChatRenderer := false
           , videoDetailsVideoId := none }
  , chatStatus := 503, dirExists := true, saveOk := true }

/-- Witness for C1 at a failing watch-page request and at a failing chat-data
request. -/
theorem live_chat_single_failure_aborts_witness :
    ((fetch_chat_replay "dQw4w9WgXcQ" envPageFail "json").1 = RunResult.exit 1 ∧
      ∀ p, Ev.fileWrite p ∉ (fetch_chat_replay "dQw4w9WgXcQ" envPageFail "json").2) ∧
    ((fetch_chat_replay "abc123" envChatFail503 "json").1 = RunResult.exit 1 ∧
      ∀ p, Ev.fileWrite p ∉ (fetch_chat_replay "abc123" envChatFail503 "json").2) :=
  ⟨live_chat_single_failure_aborts "dQw4w9WgXcQ" "json" envPageFail (Or.inl (by decide)),
   live_chat_single_failure_aborts "abc123" "json" envChatFail503
     (Or.inr (Or.inl (by decide)))⟩

/-- C2: The live-chat fetch is single-pass: when the player data yields no chat
replay URL and a (truthy) continuation token is extracted from `ytInitialData`,
the run's HTTP requests are exactly the watch-page request followed by one
request to the replay endpoint built from that token; moreover every run issues
at most two HTTP requests in total (hence at most one chat-data request), so no
further continuation tokens are ever followed. -/
theorem live_chat_single_pass (videoId outputDir : String) (env : FetchEnv)
    (yt : YtData) (pd : PlayerData) (ds ps c : String)
    (h1 : env.pageStatus = 200)
    (h2 : firstMatch env.dataVarMatch env.dataWinMatch = some ds)
    (h3 : env.parseYtData ds = some yt)
    (h4 : firstMatch env.playerVarMatch env.playerWinMatch = some ps)
    (h5 : env.parsePlayerData ps = some pd)
    (h6 : extract_chat_replay_url pd = none)
    (h7 : get_continuation_tokens yt = some c)
    (h8 : c ≠ "") :
    getUrls (fetch_chat_replay videoId env outputDir).2
      = [watchUrl videoId, chatReplayUrlOf c] ∧
    ∀ env2 : FetchEnv, (getUrls (fetch_chat_replay videoId env2 outputDir).2).length ≤ 2 := by
  have hout : get_video_info_outcome env = Except.ok (yt, pd) := by
    unfold get_video_info_outcome
    simp [h1, h2, h3, h4, h5]
  have hurl : chatUrlChoice yt pd = some (chatReplayUrlOf c) := by
    simp [chatUrlChoice, continuationUrl, h6, h7, h8]
  have htail : getUrls (fetchTailEvs videoId outputDir env) = [chatReplayUrlOf c] := by
    unfold fetchTailEvs
    rw [hout]
    by_cases hc : env.chatStatus = 200
    · by_cases hs : env.saveOk <;> simp [hurl, hc, hs, getUrls]
    · simp [hurl, hc, getUrls]
  constructor
  · rw [fetch_trace_eq]
    simp only [getUrls] at htail ⊢
    by_cases hd : env.dirExists <;> simp [hd, htail]
  · intro env2
    exact fetch_getUrls_len_le_two videoId outputDir env2

/-- Concrete parsed `ytInitialData` carrying a continuation token. -/
def ytTok : YtData := { continuationRegexMatch := some "TOKEN123", liveChatActions := none }

/-- Concrete parsed player data with no chat replay URL. -/
def pdNoUrl : PlayerData :=
  { captionTracks := none, dumpHasLiveChatRenderer := false, videoDetailsVideoId := none }

/-- Concrete environment for a successful continuation-token run. -/
def envTokenRun : FetchEnv :=
  { pageStatus := 200, dataVarMatch := some "dataJson", dataWinMatch := none
  , playerVarMatch := some "playerJson", playerWinMatch := none
  , parseYtData := fun _ => some ytTok, parsePlayerData := fun _ => some pdNoUrl
  , chatStatus := 200, dirExists := false, saveOk := true }

/-- Witness for C2 at a concrete environment. -/
theorem live_chat_single_pass_witness :
    getUrls (fetch_chat_replay "abc123" envTokenRun "json").2
      = [watchUrl "abc123", chatReplayUrlOf "TOKEN123"] :=
  (live_chat_single_pass "abc123" "json" envTokenRun ytTok pdNoUrl "dataJson" "playerJson"
    "TOKEN123" rfl rfl rfl rfl rfl rfl rfl (by decide)).1

/-- C3: `fetch_chat_replay` never retries a failed HTTP request and performs no
sleeping at all: its trace has no sleep events and at most two HTTP requests; a
failed watch-page request leaves exactly that one request in the trace and the
run exits with status 1; a failed chat-data request makes the run exit with
status 1; and every run either exits with status 1 or succeeds. -/
theorem live_chat_no_retry (videoId outputDir : String) (env : FetchEnv) :
    (∀ n, Ev.sleep n ∉ (fetch_chat_replay videoId env outputDir).2) ∧
    (getUrls (fetch_chat_replay videoId env outputDir).2).length ≤ 2 ∧
    (env.pageStatus ≠ 200 →
      getUrls (fetch_chat_replay videoId env outputDir).2 = [watchUrl videoId] ∧
      (fetch_chat_replay videoId env outputDir).1 = RunResult.exit 1) ∧
    (env.chatStatus ≠ 200 → (fetch_chat_replay videoId env outputDir).1 = RunResult.exit 1) ∧
    ((fetch_chat_replay videoId env outputDir).1 = RunResult.exit 1 ∨
      ∃ f, (fetch_chat_replay videoId env outputDir).1 = RunResult.success f) := by
  refine ⟨fun n => fetch_no_sleep videoId outputDir env n,
          fetch_getUrls_len_le_two videoId outputDir env, ?_, ?_,
          fetch_result_cases videoId outputDir env⟩
  · intro hps
    have hout := get_video_info_outcome_err env (Or.inl hps)
    have htail : fetchTailEvs videoId outputDir env = [] := by
      unfold fetchTailEvs
      rw [hout]
    constructor
    · rw [fetch_trace_eq, htail]
      by_cases hd : env.dirExists <;> simp [hd, getUrls]
    · unfold fetch_chat_replay get_video_info
      simp [hout]
  · intro hcs
    exact fetch_chatFail_exit videoId outputDir env hcs

/-- Concrete environment whose chat-data request fails with status 503. -/
def envChatFail : FetchEnv :=
  { pageStatus := 200, dataVarMatch := some "dataJson", dataWinMatch := none
  , playerVarMatch := some "playerJson", playerWinMatch := none
  , parseYtData := fun _ => some ytTok, parsePlayerData := fun _ => some pdNoUrl
  , chatStatus := 503, dirExists := true, saveOk := true }

/-- Witness for C3 at a concrete environment with a failing chat request. -/
theorem live_chat_no_retry_witness :
    (fetch_chat_replay "abc123" envChatFail "json").1 = RunResult.exit 1 :=
  (live_chat_no_retry "abc123" "json" envChatFail).2.2.2.1 (by decide)

end LiveChat

namespace ChatFromTxt

theorem json_slash_ne (x : String) : ("json/" ++ x) ≠ "json" := by
  intro h
  have hlen : ("json/" ++ x).length = ("json" : String).length := by rw [h]
  rw [String.length_append] at hlen
  have h5 : ("json/" : String).length = 5 := rfl
  have h4 : ("json" : String).length = 4 := rfl
  omega

theorem ensureJsonDir_preserves (fs : FS) (x : String) :
    (ensureJsonDir fs).1 ("json/" ++ x) = fs ("json/" ++ x) := by
  unfold ensureJsonDir
  by_cases hj : fs "json" <;> simp [hj, setFile, json_slash_ne x]

theorem ensureJsonDir_no_sleep (fs : FS) : ((ensureJsonDir fs).2).countP isSleep = 0 := by
  unfold ensureJsonDir
  by_cases hj : fs "json" <;> simp [hj, isSleep]

theorem ensureJsonDir_no_launch (fs : FS) : ((ensureJsonDir fs).2).countP isLaunch = 0 := by
  unfold ensureJsonDir
  by_cases hj : fs "json" <;> simp [hj, isLaunch]

theorem run_script_no_sleep (dl : String → DlOutcome) (fs : FS) (videoId : String)
    (force : Bool) :
    ((run_live_chat_script dl fs videoId force).2.2).countP isSleep = 0 := by
  unfold run_live_chat_script
  cases hfound : (if force then none else (possible_locations videoId).find? fs) with
  | some filePath =>
    by_cases h1 : filePath = expectedName videoId ∨ filePath = "json/" ++ expectedName videoId <;>
      simp [h1, isSleep]
  | none =>
    have hdir := ensureJsonDir_no_sleep fs
    cases hdl : dl videoId <;>
      repeat' split <;>
        simp_all [isSleep, List.countP_append, -List.countP_eq_zero]

theorem run_script_launch_le_one (dl : String → DlOutcome) (fs : FS) (videoId : String)
    (force : Bool) :
    ((run_live_chat_script dl fs videoId force).2.2).countP isLaunch ≤ 1 := by
  unfold run_live_chat_script
  cases hfound : (if force then none else (possible_locations videoId).find? fs) with
  | some filePath =>
    by_cases h1 : filePath = expectedName videoId ∨ filePath = "json/" ++ expectedName videoId <;>
      simp [h1, isLaunch]
  | none =>
    have hdir := ensureJsonDir_no_launch fs
    cases hdl : dl videoId <;>
      repeat' split <;>
        simp_all [isLaunch, List.countP_append, -List.countP_eq_zero]

theorem process_video_no_sleep (dl : String → DlOutcome) (fs : FS) (force : Bool) (v : Video) :
    ((process_video dl fs force v).2.2).countP isSleep = 0 := by
  unfold process_video
  cases hfound : (if force then none else (possible_locations v.videoId).find? fs) with
  | some filePath =>
    have hdir := ensureJsonDir_no_sleep fs
    by_cases h1 : filePath = "json/" ++ expectedName v.videoId <;>
      simp_all [isSleep, List.countP_append, -List.countP_eq_zero]
  | none =>
    exact run_script_no_sleep dl fs v.videoId force

theorem process_video_launch_le_one (dl : String → DlOutcome) (fs : FS) (force : Bool)
    (v : Video) :
    ((process_video dl fs force v).2.2).countP isLaunch ≤ 1 := by
  unfold process_video
  cases hfound : (if force then none else (possible_locations v.videoId).find? fs) with
  | some filePath =>
    have hdir := ensureJsonDir_no_launch fs
    by_cases h1 : filePath = "json/" ++ expectedName v.videoId <;>
      simp_all [isLaunch, List.countP_append, -List.countP_eq_zero]
  | none =>
    exact run_script_launch_le_one dl fs v.videoId force

theorem launchScan_append_plain (evs : List Ev) :
    ∀ (rest : List Ev) (b : Bool), evs.countP isSleep = 0 → evs.countP isLaunch = 0 →
      launchScan (evs ++ rest) b = launchScan rest b := by
  induction evs with
  | nil => intro rest b _ _; rfl
  | cons e t ih =>
    intro rest b hs hl
    cases e with
    | sleep n => simp [isSleep, List.countP_cons] at hs
    | launch c => simp [isLaunch, List.countP_cons] at hl
    | mkdir d =>
      rw [List.cons_append]
      rw [show launchScan (Ev.mkdir d :: (t ++ rest)) b = launchScan (t ++ rest) b from rfl]
      exact ih rest b (by simpa [isSleep, List.countP_cons] using hs)
        (by simpa [isLaunch, List.countP_cons] using hl)
    | httpGet u =>
      rw [List.cons_append]
      rw [show launchScan (Ev.httpGet u :: (t ++ rest)) b = launchScan (t ++ rest) b from rfl]
      exact ih rest b (by simpa [isSleep, List.countP_cons] using hs)
        (by simpa [isLaunch, List.countP_cons] using hl)
    | fileWrite p =>
      rw [List.cons_append]
      rw [show launchScan (Ev.fileWrite p :: (t ++ rest)) b = launchScan (t ++ rest) b from rfl]
      exact ih rest b (by simpa [isSleep, List.countP_cons] using hs)
        (by simpa [isLaunch, List.countP_cons] using hl)
    | copy s d =>
      rw [List.cons_append]
      rw [show launchScan (Ev.copy s d :: (t ++ rest)) b = launchScan (t ++ rest) b from rfl]
      exact ih rest b (by simpa [isSleep, List.countP_cons] using hs)
        (by simpa [isLaunch, List.countP_cons] using hl)

theorem launchScan_segment (evs : List Ev) :
    ∀ (rest : List Ev), evs.countP isSleep = 0 → evs.countP isLaunch ≤ 1 →
      launchScan (evs ++ Ev.sleep 1 :: rest) false = launchScan rest false := by
  induction evs with
  | nil =>
    intro rest _ _
    rfl
  | cons e t ih =>
    intro rest hs hl
    cases e with
    | sleep n => simp [isSleep, List.countP_cons] at hs
    | launch c =>
      have hl0 : t.countP isLaunch = 0 := by
        simp [isLaunch, List.countP_cons, -List.countP_eq_zero] at hl
        omega
      have hs0 : t.countP isSleep = 0 := by simpa [isSleep, List.countP_cons] using hs
      rw [List.cons_append]
      rw [show launchScan (Ev.launch c :: (t ++ Ev.sleep 1 :: rest)) false
            = launchScan (t ++ Ev.sleep 1 :: rest) true from rfl]
      rw [launchScan_append_plain t (Ev.sleep 1 :: rest) true hs0 hl0]
      rfl
    | mkdir d =>
      rw [List.cons_append]
      rw [show launchScan (Ev.mkdir d :: (t ++ Ev.sleep 1 :: rest)) false
            = launchScan (t ++ Ev.sleep 1 :: rest) false from rfl]
      exact ih rest (by simpa [isSleep, List.countP_cons] using hs)
        (by simp [isLaunch, List.countP_cons, -List.countP_eq_zero] at hl ⊢; omega)
    | httpGet u =>
      rw [List.cons_append]
      rw [show launchScan (Ev.httpGet u :: (t ++ Ev.sleep 1 :: rest)) false
            = launchScan (t ++ Ev.sleep 1 :: rest) false from rfl]
      exact ih rest (by simpa [isSleep, List.countP_cons] using hs)
        (by simp [isLaunch, List.countP_cons, -List.countP_eq_zero] at hl ⊢; omega)
    | fileWrite p =>
      rw [List.cons_append]
      rw [show launchScan (Ev.fileWrite p :: (t ++ Ev.sleep 1 :: rest)) false
            = launchScan (t ++ Ev.sleep 1 :: rest) false from rfl]
      exact ih rest (by simpa [isSleep, List.countP_cons] using hs)
        (by simp [isLaunch, List.countP_cons, -List.countP_eq_zero] at hl ⊢; omega)
    | copy s d =>
      rw [List.cons_append]
      rw [show launchScan (Ev.copy s d :: (t ++ Ev.sleep 1 :: rest)) false
            = launchScan (t ++ Ev.sleep 1 :: rest) false from rfl]
      exact ih rest (by simpa [isSleep, List.countP_cons] using hs)
        (by simp [isLaunch, List.countP_cons, -List.countP_eq_zero] at hl ⊢; omega)

theorem mainLoop_ff_nil (dl : String → DlOutcome) (force : Bool) (fs : FS) (k : Nat) :
    mainLoop (fun _ => false) dl force fs k [] = (0, fs, []) := rfl

theorem mainLoop_ff_cons (dl : String → DlOutcome) (force : Bool) (fs : FS) (k : Nat)
    (v : Video) (rest : List Video) :
    mainLoop (fun _ => false) dl force fs k (v :: rest) =
      ((if (process_video dl fs force v).1 then 1 else 0)
          + (mainLoop (fun _ => false) dl force (process_video dl fs force v).2.1 (k + 2) rest).1,
       (mainLoop (fun _ => false) dl force (process_video dl fs force v).2.1 (k + 2) rest).2.1,
       (process_video dl fs force v).2.2 ++ [Ev.sleep 1]
          ++ (mainLoop (fun _ => false) dl force (process_video dl fs force v).2.1 (k + 2) rest).2.2) :=
  rfl

theorem mainLoop_ff_sleepCount (dl : String → DlOutcome) (force : Bool) :
    ∀ (videos : List Video) (fs : FS) (k : Nat),
      ((mainLoop (fun _ => false) dl force fs k videos).2.2).countP isSleep = videos.length := by
  intro videos
  induction videos with
  | nil => intro fs k; simp [mainLoop_ff_nil]
  | cons v rest ih =>
    intro fs k
    rw [mainLoop_ff_cons]
    have hv := process_video_no_sleep dl fs force v
    simp [List.countP_append, List.countP_cons, hv, isSleep,
      ih (process_video dl fs force v).2.1 (k + 2), -List.countP_eq_zero]

theorem mainLoop_ff_sleep_one (dl : String → DlOutcome) (force : Bool) :
    ∀ (videos : List Video) (fs : FS) (k : Nat) (n : Nat),
      Ev.sleep n ∈ (mainLoop (fun _ => false) dl force fs k videos).2.2 → n = 1 := by
  intro videos
  induction videos with
  | nil => intro fs k n h; simp [mainLoop_ff_nil] at h
  | cons v rest ih =>
    intro fs k n h
    rw [mainLoop_ff_cons] at h
    rcases List.mem_append.mp h with h1 | h2
    · rcases List.mem_append.mp h1 with h3 | h4
      · have hzero := List.countP_eq_zero.mp (process_video_no_sleep dl fs force v)
        have := hzero _ h3
        simp [isSleep] at this
      · simp at h4
        exact h4
    · exact ih _ _ n h2

theorem mainLoop_ff_scan (dl : String → DlOutcome) (force : Bool) :
    ∀ (videos : List Video) (fs : FS) (k : Nat),
      launchScan ((mainLoop (fun _ => false) dl force fs k videos).2.2) false = true := by
  intro videos
  induction videos with
  | nil => intro fs k; rfl
  | cons v rest ih =>
    intro fs k
    rw [mainLoop_ff_cons]
    rw [List.append_assoc, List.singleton_append]
    rw [launchScan_segment _ _ (process_video_no_sleep dl fs force v)
      (process_video_launch_le_one dl fs force v)]
    exact ih _ _

/-- C5: The manifest-driven downloader without `--position` is strictly
sequential: the (optionally `--start`-filtered) list it iterates is a sublist
of the manifest list in manifest order; in an uninterrupted run every sleep in
the trace is the fixed `time.sleep(1)`; there is exactly one sleep per
processed video (one video at a time, each followed by the fixed delay); and no
two subprocess launches ever occur without a sleep between them — a sequential
loop, not a queue or worker pool. -/
theorem batch_sequential_fixed_sleep (dl : String → DlOutcome) (force : Bool) (fs : FS)
    (start : Option Int) (videos : List Video) :
    (videosToProcess start videos).Sublist videos ∧
    (∀ n, Ev.sleep n ∈ (mainNoPosition (fun _ => false) dl force fs start videos).2.2 → n = 1) ∧
    ((mainNoPosition (fun _ => false) dl force fs start videos).2.2).countP isSleep
      = (videosToProcess start videos).length ∧
    launchScan ((mainNoPosition (fun _ => false) dl force fs start videos).2.2) false = true := by
  refine ⟨?_, fun n h => mainLoop_ff_sleep_one dl force _ fs 0 n h,
    mainLoop_ff_sleepCount dl force _ fs 0, mainLoop_ff_scan dl force _ fs 0⟩
  cases start with
  | none => exact List.Sublist.refl _
  | some s => exact List.filter_sublist _

/-- Witness for C5 at a concrete one-video manifest. -/
theorem batch_sequential_fixed_sleep_witness :
    ((mainNoPosition (fun _ => false) (fun _ => DlOutcome.ok true false) false (fun _ => false)
        none [{ position := "1", videoId := "v1", title := "T" }]).2.2).countP isSleep = 1 :=
  (batch_sequential_fixed_sleep (fun _ => DlOutcome.ok true false) false (fun _ => false)
    none [{ position := "1", videoId := "v1", title := "T" }]).2.2.1

/-- C4: For every video processed without `--force`, the resume check is the
linear existence test over the four hardcoded candidates of
`possible_locations` in their fixed order (`find?` returns the first existing
one): when any candidate exists, `process_video` succeeds with no subprocess
launch in its trace, a file found at a non-standard path is additionally copied
to the standard `json/{id}_live_chat.json` path, and a file already at the
standard path produces no effect at all. -/
theorem resume_check_skips_download (dl : String → DlOutcome) (fs : FS) (v : Video)
    (filePath : String)
    (hfind : (possible_locations v.videoId).find? fs = some filePath) :
    (process_video dl fs false v).1 = true ∧
    (∀ c, Ev.launch c ∉ (process_video dl fs false v).2.2) ∧
    (filePath ≠ "json/" ++ expectedName v.videoId →
      Ev.copy filePath ("json/" ++ expectedName v.videoId) ∈ (process_video dl fs false v).2.2) ∧
    (filePath = "json/" ++ expectedName v.videoId → (process_video dl fs false v).2.2 = []) := by
  unfold process_video
  rw [show (if false then none else (possible_locations v.videoId).find? fs)
        = (possible_locations v.videoId).find? fs from rfl, hfind]
  by_cases h1 : filePath = "json/" ++ expectedName v.videoId
  · simp [h1]
  · unfold ensureJsonDir
    by_cases hj : fs "json" <;> simp [h1, hj]

/-- A concrete filesystem holding only the replay-named file for video `v1`. -/
def fsReplayOnly : FS := fun s => s == "v1_live_chat_replay.json"

/-- Witness for C4 at a concrete filesystem and video. -/
theorem resume_check_skips_download_witness :
    (process_video (fun _ => DlOutcome.otherError) fsReplayOnly false
        { position := "1", videoId := "v1", title := "T" }).1 = true ∧
    Ev.copy "v1_live_chat_replay.json" ("json/" ++ expectedName "v1")
      ∈ (process_video (fun _ => DlOutcome.otherError) fsReplayOnly false
          { position := "1", videoId := "v1", title := "T" }).2.2 := by
  have h := resume_check_skips_download (fun _ => DlOutcome.otherError) fsReplayOnly
    { position := "1", videoId := "v1", title := "T" } "v1_live_chat_replay.json" (by decide)
  exact ⟨h.1, h.2.2.1 (by decide)⟩

/-- C9: A failure on one video never aborts the batch: with no resume candidate
present, a subprocess that times out, exits non-zero, raises, or produces no
output file makes `run_live_chat_script` return `none` and `process_video`
return `false`; the uninterrupted main loop still processes every remaining
video (its success count is exactly the count over the rest, and the trace
still holds one fixed sleep per video, failed one included), while an interrupt
observed at the loop head stops the batch immediately. -/
theorem batch_failure_isolated (dl : String → DlOutcome) (fs : FS) (v : Video)
    (rest : List Video)
    (hnofile : (possible_locations v.videoId).find? fs = none)
    (hfail : dl v.videoId = DlOutcome.timeoutExpired ∨ dl v.videoId = DlOutcome.calledProcessError ∨
             dl v.videoId = DlOutcome.otherError ∨ dl v.videoId = DlOutcome.ok false false) :
    (run_live_chat_script dl fs v.videoId false).1 = none ∧
    (process_video dl fs false v).1 = false ∧
    (mainLoop (fun _ => false) dl false fs 0 (v :: rest)).1
      = (mainLoop (fun _ => false) dl false (process_video dl fs false v).2.1 2 rest).1 ∧
    ((mainLoop (fun _ => false) dl false fs 0 (v :: rest)).2.2).countP isSleep
      = rest.length + 1 ∧
    mainLoop (fun _ => true) dl false fs 0 (v :: rest) = (0, fs, []) := by
  have hmemr : ("json/" ++ replayName v.videoId) ∈ possible_locations v.videoId := by
    simp [possible_locations]
  have hmeme : ("json/" ++ expectedName v.videoId) ∈ possible_locations v.videoId := by
    simp [possible_locations]
  have hall := List.find?_eq_none.mp hnofile
  have hrep : fs ("json/" ++ replayName v.videoId) = false := by
    have := hall _ hmemr
    simpa using this
  have hexp : fs ("json/" ++ expectedName v.videoId) = false := by
    have := hall _ hmeme
    simpa using this
  have hrep1 : (ensureJsonDir fs).1 ("json/" ++ replayName v.videoId) = false := by
    rw [ensureJsonDir_preserves]
    exact hrep
  have hexp1 : (ensureJsonDir fs).1 ("json/" ++ expectedName v.videoId) = false := by
    rw [ensureJsonDir_preserves]
    exact hexp
  have hrun : (run_live_chat_script dl fs v.videoId false).1 = none := by
    unfold run_live_chat_script
    rw [show (if false then none else (possible_locations v.videoId).find? fs)
          = (possible_locations v.videoId).find? fs from rfl, hnofile]
    rcases hfail with h | h | h | h <;> (rw [h]; try simp [hrep1, hexp1])
  have hpv : (process_video dl fs false v).1 = false := by
    unfold process_video
    rw [show (if false then none else (possible_locations v.videoId).find? fs)
          = (possible_locations v.videoId).find? fs from rfl, hnofile]
    simp [hrun]
  refine ⟨hrun, hpv, ?_, ?_, rfl⟩
  · rw [mainLoop_ff_cons]
    simp [hpv]
  · rw [mainLoop_ff_cons]
    have hv := process_video_no_sleep dl fs false v
    simp [List.countP_append, List.countP_cons, hv, isSleep,
      mainLoop_ff_sleepCount dl false rest, -List.countP_eq_zero]

/-- Witness for C9: a video whose subprocess exits non-zero, in a batch of one. -/
theorem batch_failure_isolated_witness :
    (process_video (fun _ => DlOutcome.calledProcessError) (fun _ => false) false
        { position := "1", videoId := "v9", title := "T" }).1 = false ∧
    ((mainLoop (fun _ => false) (fun _ => DlOutcome.calledProcessError) false (fun _ => false) 0
        [{ position := "1", videoId := "v9", title := "T" }]).2.2).countP isSleep = 1 := by
  have h := batch_failure_isolated (fun _ => DlOutcome.calledProcessError) (fun _ => false)
    { position := "1", videoId := "v9", title := "T" } [] rfl (Or.inr (Or.inl rfl))
  exact ⟨h.2.1, h.2.2.2.1⟩

/-- C7: `read_text_file` exits with status 1 when the file is missing, when it
has no non-empty line, or when the first non-empty line lacks any of the
`Position`, `Video ID`, `Title` headers; otherwise it returns one record per
subsequent non-empty line with enough columns, where a line is skipped exactly
when its column count is at most the largest required column index. -/
theorem read_text_file_requirements :
    (read_text_file none = Except.error 1) ∧
    (∀ raw : List String, raw.filter (fun l => pyStrip l != "") = [] →
      read_text_file (some raw) = Except.error 1) ∧
    (∀ (raw : List String) (hd : String) (tl : List String),
      raw.filter (fun l => pyStrip l != "") = hd :: tl →
      ¬((pySplitChar '\t' (pyStrip hd)).contains "Position" = true ∧
        (pySplitChar '\t' (pyStrip hd)).contains "Video ID" = true ∧
        (pySplitChar '\t' (pyStrip hd)).contains "Title" = true) →
      read_text_file (some raw) = Except.error 1) ∧
    (∀ (raw : List String) (hd : String) (tl : List String),
      raw.filter (fun l => pyStrip l != "") = hd :: tl →
      (pySplitChar '\t' (pyStrip hd)).contains "Position" = true →
      (pySplitChar '\t' (pyStrip hd)).contains "Video ID" = true →
      (pySplitChar '\t' (pyStrip hd)).contains "Title" = true →
      read_text_file (some raw) = Except.ok (tl.filterMap
        (rowOf (lastIdx (pySplitChar '\t' (pyStrip hd)) "Position")
          (lastIdx (pySplitChar '\t' (pyStrip hd)) "Video ID")
          (lastIdx (pySplitChar '\t' (pyStrip hd)) "Title")))) ∧
    (∀ (p q r : Nat) (line : String),
      rowOf p q r line = none ↔ (pySplitChar '\t' (pyStrip line)).length ≤ max p (max q r)) := by
  refine ⟨rfl, ?_, ?_, ?_, ?_⟩
  · intro raw h
    unfold read_text_file
    dsimp only
    rw [h]
  · intro raw hd tl h hcond
    unfold read_text_file
    dsimp only
    rw [h]
    dsimp only
    have hb : ¬((pySplitChar '\t' (pyStrip hd)).contains "Position"
        && (pySplitChar '\t' (pyStrip hd)).contains "Video ID"
        && (pySplitChar '\t' (pyStrip hd)).contains "Title") = true := by
      simpa [Bool.and_eq_true, and_assoc] using hcond
    rw [if_neg hb]
  · intro raw hd tl h h1 h2 h3
    unfold read_text_file
    dsimp only
    rw [h]
    dsimp only
    have hb : ((pySplitChar '\t' (pyStrip hd)).contains "Position"
        && (pySplitChar '\t' (pyStrip hd)).contains "Video ID"
        && (pySplitChar '\t' (pyStrip hd)).contains "Title") = true := by
      rw [h1, h2, h3]
      rfl
    rw [if_pos hb]
  · intro p q r line
    unfold rowOf
    dsimp only
    split <;> simp_all

/-- Witness for C7: a concrete manifest with one valid and one short row. -/
theorem read_text_file_requirements_witness :
    read_text_file (some ["Position\tVideo ID\tTitle", "1\tabc\tT1", "short"])
      = Except.ok [{ position := "1", videoId := "abc", title := "T1" }] := by
  have h := read_text_file_requirements.2.2.2.1
    ["Position\tVideo ID\tTitle", "1\tabc\tT1", "short"]
    "Position\tVideo ID\tTitle" ["1\tabc\tT1", "short"] (by decide) (by decide) (by decide)
    (by decide)
  exact h

end ChatFromTxt

namespace YtDlp

theorem toString_intOfNat (k : Nat) : toString ((k : Nat) : Int) = toString k := rfl

theorem pad2Int_ofNat (k : Nat) : pad2Int ((k : Nat) : Int) = pad2 k := by
  unfold pad2Int pad2
  by_cases hk : k < 10
  · rw [if_pos (by exact_mod_cast And.intro (Int.ofNat_nonneg k) hk), if_pos hk,
      toString_intOfNat]
  · rw [if_neg (by
      rintro ⟨_, h2⟩
      exact hk (by exact_mod_cast h2)), if_neg hk, toString_intOfNat]

/-- The `H:MM:SS` / `M:SS` rendering of `format_duration`, carried from the
embedding's `Int` floor divmod to `Nat` division on a nonnegative input. -/
theorem duration_render_ofNat (m : Nat) :
    (if 0 < ((m : Int)).ediv 3600 then
      toString (((m : Int)).ediv 3600) ++ ":" ++ pad2Int ((((m : Int)).emod 3600).ediv 60)
        ++ ":" ++ pad2Int ((((m : Int)).emod 3600).emod 60)
     else toString ((((m : Int)).emod 3600).ediv 60)
        ++ ":" ++ pad2Int ((((m : Int)).emod 3600).emod 60)) =
    (if 0 < m / 3600 then
      toString (m / 3600) ++ ":" ++ pad2 (m % 3600 / 60) ++ ":" ++ pad2 (m % 60)
     else toString (m % 3600 / 60) ++ ":" ++ pad2 (m % 60)) := by
  have e1 : ((m : Int)).ediv 3600 = ((m / 3600 : Nat) : Int) := rfl
  have e2 : ((m : Int)).emod 3600 = ((m % 3600 : Nat) : Int) := rfl
  have e3 : (((m % 3600 : Nat) : Int)).ediv 60 = ((m % 3600 / 60 : Nat) : Int) := rfl
  have e4 : (((m % 3600 : Nat) : Int)).emod 60 = ((m % 3600 % 60 : Nat) : Int) := rfl
  have e5 : m % 3600 % 60 = m % 60 := Nat.mod_mod_of_dvd m (by norm_num)
  simp only [e1, e2, e3, e4, e5, toString_intOfNat, pad2Int_ofNat, Int.ofNat_pos]

theorem format_duration_pos (m : Nat) (hm : m ≠ 0) :
    format_duration (PyV.pyint (m : Int)) =
      (if 0 < m / 3600 then
        toString (m / 3600) ++ ":" ++ pad2 (m % 3600 / 60) ++ ":" ++ pad2 (m % 60)
       else toString (m % 3600 / 60) ++ ":" ++ pad2 (m % 60)) := by
  have htr : pyTruthy (PyV.pyint (m : Int)) = true := by
    simp [pyTruthy]
    exact_mod_cast hm
  unfold format_duration
  rw [if_pos htr]
  show (match pyFloatTruncOfV (PyV.pyint (m : Int)) with
    | none => pyStr (PyV.pyint (m : Int))
    | some seconds =>
      if 0 < seconds.ediv 3600 then
        toString (seconds.ediv 3600) ++ ":" ++ pad2Int ((seconds.emod 3600).ediv 60)
          ++ ":" ++ pad2Int ((seconds.emod 3600).emod 60)
      else toString ((seconds.emod 3600).ediv 60) ++ ":" ++ pad2Int ((seconds.emod 3600).emod 60)) = _
  rw [show pyFloatTruncOfV (PyV.pyint (m : Int)) = some ((m : Nat) : Int) from rfl]
  exact duration_render_ofNat m

/-- A truthy string whose `int(float(...))` parse succeeds with a nonnegative
value is rendered through the same divmod chain as an integer input. -/
theorem format_duration_parse (s : String) (m : Nat) (hs : s ≠ "")
    (hp : pyFloatTrunc? s = some ((m : Nat) : Int)) :
    format_duration (PyV.pystr s) =
      (if 0 < m / 3600 then
        toString (m / 3600) ++ ":" ++ pad2 (m % 3600 / 60) ++ ":" ++ pad2 (m % 60)
       else toString (m % 3600 / 60) ++ ":" ++ pad2 (m % 60)) := by
  have htr : pyTruthy (PyV.pystr s) = true := by
    simp [pyTruthy]
    exact hs
  unfold format_duration
  rw [if_pos htr]
  show (match pyFloatTruncOfV (PyV.pystr s) with
    | none => pyStr (PyV.pystr s)
    | some seconds =>
      if 0 < seconds.ediv 3600 then
        toString (seconds.ediv 3600) ++ ":" ++ pad2Int ((seconds.emod 3600).ediv 60)
          ++ ":" ++ pad2Int ((seconds.emod 3600).emod 60)
      else toString ((seconds.emod 3600).ediv 60) ++ ":" ++ pad2Int ((seconds.emod 3600).emod 60)) = _
  rw [show pyFloatTruncOfV (PyV.pystr s) = pyFloatTrunc? s from rfl, hp]
  exact duration_render_ofNat m

end YtDlp

namespace YtDlp

theorem processLinesAux_pos_bounds (tz : Int → String) :
    ∀ (ls : List YLine) (k : Nat) (r : Record), r ∈ processLinesAux tz k ls →
      k + 1 ≤ r.position ∧ r.position ≤ k + ls.length := by
  intro ls
  induction ls with
  | nil =>
    intro k r h
    simp [processLinesAux] at h
  | cons l rest ih =>
    intro k r h
    cases l with
    | blank =>
      have := ih (k + 1) r (by simpa [processLinesAux] using h)
      simp only [List.length_cons]
      omega
    | badJson =>
      have := ih (k + 1) r (by simpa [processLinesAux] using h)
      simp only [List.length_cons]
      omega
    | good v =>
      rw [show processLinesAux tz k (YLine.good v :: rest)
            = mkRecord tz (k + 1) v :: processLinesAux tz (k + 1) rest from rfl] at h
      rcases List.mem_cons.mp h with h1 | h2
      · subst h1
        simp [mkRecord]
      · have := ih (k + 1) r h2
        simp only [List.length_cons]
        omega

theorem processLinesAux_filter_good (tz : Int → String) :
    ∀ (ls : List YLine) (k i : Nat) (v : VDat), ls.get? i = some (YLine.good v) →
      (processLinesAux tz k ls).filter (fun r => r.position == k + i + 1)
        = [mkRecord tz (k + i + 1) v] := by
  intro ls
  induction ls with
  | nil =>
    intro k i v h
    simp at h
  | cons l rest ih =>
    intro k i v h
    have htail0 : ∀ (p : Nat), p ≤ k + 1 →
        (processLinesAux tz (k + 1) rest).filter (fun r => r.position == p) = [] := by
      intro p hp
      rw [List.filter_eq_nil_iff]
      intro r hr
      have hb := processLinesAux_pos_bounds tz rest (k + 1) r hr
      simp only [beq_iff_eq]
      omega
    cases i with
    | zero =>
      have hl : l = YLine.good v := by simpa using h
      subst hl
      rw [show processLinesAux tz k (YLine.good v :: rest)
            = mkRecord tz (k + 1) v :: processLinesAux tz (k + 1) rest from rfl]
      rw [List.filter_cons]
      have hpos : ((mkRecord tz (k + 1) v).position == k + 0 + 1) = true := by
        simp [mkRecord]
      rw [if_pos hpos, htail0 (k + 0 + 1) (by omega)]
    | succ j =>
      have hrest : rest.get? j = some (YLine.good v) := by simpa using h
      have harith : k + 1 + j + 1 = k + (j + 1) + 1 := by omega
      cases l with
      | blank =>
        rw [show processLinesAux tz k (YLine.blank :: rest)
              = processLinesAux tz (k + 1) rest from rfl]
        have := ih (k + 1) j v hrest
        rw [harith] at this
        simpa [harith] using this
      | badJson =>
        rw [show processLinesAux tz k (YLine.badJson :: rest)
              = processLinesAux tz (k + 1) rest from rfl]
        have := ih (k + 1) j v hrest
        simpa [harith] using this
      | good w =>
        rw [show processLinesAux tz k (YLine.good w :: rest)
              = mkRecord tz (k + 1) w :: processLinesAux tz (k + 1) rest from rfl]
        rw [List.filter_cons]
        have hpos : ((mkRecord tz (k + 1) w).position == k + (j + 1) + 1) = false := by
          simp [mkRecord]
        rw [hpos]
        have := ih (k + 1) j v hrest
        simpa [harith] using this

theorem processLinesAux_filter_bad (tz : Int → String) :
    ∀ (ls : List YLine) (k i : Nat), ls.get? i = some YLine.badJson →
      (processLinesAux tz k ls).filter (fun r => r.position == k + i + 1) = [] := by
  intro ls
  induction ls with
  | nil =>
    intro k i h
    simp at h
  | cons l rest ih =>
    intro k i h
    cases i with
    | zero =>
      have hl : l = YLine.badJson := by simpa using h
      subst hl
      rw [show processLinesAux tz k (YLine.badJson :: rest)
            = processLinesAux tz (k + 1) rest from rfl]
      rw [List.filter_eq_nil_iff]
      intro r hr
      have hb := processLinesAux_pos_bounds tz rest (k + 1) r hr
      simp only [beq_iff_eq]
      omega
    | succ j =>
      have hrest : rest.get? j = some YLine.badJson := by simpa using h
      have harith : k + 1 + j + 1 = k + (j + 1) + 1 := by omega
      cases l with
      | blank =>
        rw [show processLinesAux tz k (YLine.blank :: rest)
              = processLinesAux tz (k + 1) rest from rfl]
        have := ih (k + 1) j hrest
        simpa [harith] using this
      | badJson =>
        rw [show processLinesAux tz k (YLine.badJson :: rest)
              = processLinesAux tz (k + 1) rest from rfl]
        have := ih (k + 1) j hrest
        simpa [harith] using this
      | good w =>
        rw [show processLinesAux tz k (YLine.good w :: rest)
              = mkRecord tz (k + 1) w :: processLinesAux tz (k + 1) rest from rfl]
        rw [List.filter_cons]
        have hpos : ((mkRecord tz (k + 1) w).position == k + (j + 1) + 1) = false := by
          simp [mkRecord]
        rw [hpos]
        have := ih (k + 1) j hrest
        simpa [harith] using this

theorem processLinesAux_length (tz : Int → String) :
    ∀ (ls : List YLine) (k : Nat),
      (processLinesAux tz k ls).length = ls.countP isGoodLine := by
  intro ls
  induction ls with
  | nil => intro k; rfl
  | cons l rest ih =>
    intro k
    cases l with
    | blank => simp [processLinesAux, List.countP_cons, isGoodLine, ih (k + 1)]
    | badJson => simp [processLinesAux, List.countP_cons, isGoodLine, ih (k + 1)]
    | good v => simp [processLinesAux, List.countP_cons, isGoodLine, ih (k + 1)]

/-- C6: The playlist extractor only reshapes the JSON-lines output: every
stdout line that parses as JSON yields exactly one record, whose position is
the line index plus one; a line that fails to parse yields no record; the
number of records equals the number of parseable lines; and the saved file is
the 9-column header row followed by one 9-field row per record. -/
theorem playlist_reshape_tsv (tz : Int → String) (lines : List YLine) :
    (∀ (i : Nat) (v : VDat), lines.get? i = some (YLine.good v) →
      (get_playlist_videos tz lines).filter (fun r => r.position == i + 1)
        = [mkRecord tz (i + 1) v]) ∧
    (∀ i : Nat, lines.get? i = some YLine.badJson →
      (get_playlist_videos tz lines).filter (fun r => r.position == i + 1) = []) ∧
    (get_playlist_videos tz lines).length = lines.countP isGoodLine ∧
    save_videos_rows (get_playlist_videos tz lines)
      = headerFields :: (get_playlist_videos tz lines).map recordFields ∧
    headerFields.length = 9 ∧
    (∀ r : Record, (recordFields r).length = 9) := by
  refine ⟨?_, ?_, processLinesAux_length tz lines 0, rfl, rfl, fun r => rfl⟩
  · intro i v h
    have := processLinesAux_filter_good tz lines 0 i v h
    simpa [Nat.zero_add] using this
  · intro i h
    have := processLinesAux_filter_bad tz lines 0 i h
    simpa [Nat.zero_add] using this

/-- Witness for C6: a blank line, a parsed line, an unparseable line. -/
theorem playlist_reshape_tsv_witness :
    ((get_playlist_videos (fun _ => "DATE")
        [YLine.blank,
         YLine.good { id := some "id1", title := some "T", timestamp := PyV.pyint 100
                    , channel := some "Ch", view_count := PyV.pyint 5
                    , comment_count := PyV.pynone, duration := PyV.pyint 0
                    , channel_id := some "cid" },
         YLine.badJson]).filter (fun r => r.position == 2))
      = [mkRecord (fun _ => "DATE") 2
          { id := some "id1", title := some "T", timestamp := PyV.pyint 100
          , channel := some "Ch", view_count := PyV.pyint 5
          , comment_count := PyV.pynone, duration := PyV.pyint 0
          , channel_id := some "cid" }] ∧
    ((get_playlist_videos (fun _ => "DATE")
        [YLine.blank,
         YLine.good { id := some "id1", title := some "T", timestamp := PyV.pyint 100
                    , channel := some "Ch", view_count := PyV.pyint 5
                    , comment_count := PyV.pynone, duration := PyV.pyint 0
                    , channel_id := some "cid" },
         YLine.badJson]).filter (fun r => r.position == 3)) = [] := by
  have h := playlist_reshape_tsv (fun _ => "DATE")
    [YLine.blank,
     YLine.good { id := some "id1", title := some "T", timestamp := PyV.pyint 100
                , channel := some "Ch", view_count := PyV.pyint 5
                , comment_count := PyV.pynone, duration := PyV.pyint 0
                , channel_id := some "cid" },
     YLine.badJson]
  exact ⟨h.1 1 _ rfl, h.2.1 2 rfl⟩

end YtDlp

theorem splitCh_no_sep (sep : Char) :
    ∀ (l : List Char), (∀ c ∈ l, c ≠ sep) → splitCh sep l = [l] := by
  intro l
  induction l with
  | nil => intro h; rfl
  | cons c t ih =>
    intro h
    rw [splitCh]
    rw [if_neg (h c (List.mem_cons_self c t))]
    rw [ih (fun x hx => h x (List.mem_cons_of_mem c hx))]

theorem splitCh_append_sep (sep : Char) :
    ∀ (l r : List Char), (∀ c ∈ l, c ≠ sep) →
      splitCh sep (l ++ sep :: r) = l :: splitCh sep r := by
  intro l
  induction l with
  | nil =>
    intro r h
    rw [List.nil_append]
    rw [splitCh]
    rw [if_pos rfl]
  | cons c t ih =>
    intro r h
    rw [List.cons_append]
    rw [splitCh]
    rw [if_neg (h c (List.mem_cons_self c t))]
    rw [ih r (fun x hx => h x (List.mem_cons_of_mem c hx))]

theorem digit_ne_colon {c : Char} (h : c.isDigit = true) : c ≠ ':' := by
  intro hEq
  subst hEq
  exact absurd h (by decide)

theorem digit_ne_minus {c : Char} (h : c.isDigit = true) : c ≠ '-' := by
  intro hEq
  subst hEq
  exact absurd h (by decide)

theorem digit_not_space {c : Char} (h : c.isDigit = true) : isPySpace c = false := by
  have h1 : c ≠ ' ' := by intro hEq; subst hEq; exact absurd h (by decide)
  have h2 : c ≠ '\t' := by intro hEq; subst hEq; exact absurd h (by decide)
  have h3 : c ≠ '\n' := by intro hEq; subst hEq; exact absurd h (by decide)
  have h4 : c ≠ '\r' := by intro hEq; subst hEq; exact absurd h (by decide)
  have h5 : c ≠ '\x0b' := by intro hEq; subst hEq; exact absurd h (by decide)
  have h6 : c ≠ '\x0c' := by intro hEq; subst hEq; exact absurd h (by decide)
  simp [isPySpace, h1, h2, h3, h4, h5, h6]

theorem dropWhile_isPySpace_digits (ds : List Char) (h : ds.all Char.isDigit = true) :
    ds.dropWhile isPySpace = ds := by
  cases ds with
  | nil => rfl
  | cons c t =>
    rw [List.dropWhile_cons]
    have hc : c.isDigit = true := List.all_eq_true.mp h c (List.mem_cons_self c t)
    rw [digit_not_space hc]
    simp

theorem stripWs_digits (ds : List Char) (h : ds.all Char.isDigit = true) :
    stripWs ds = ds := by
  unfold stripWs
  rw [dropWhile_isPySpace_digits ds h]
  rw [dropWhile_isPySpace_digits ds.reverse (by
    rw [List.all_eq_true] at h ⊢
    intro x hx
    exact h x (List.mem_reverse.mp hx))]
  rw [List.reverse_reverse]

theorem digit_ne_underscore {c : Char} (h : c.isDigit = true) : c ≠ '_' := by
  intro hEq
  subst hEq
  exact absurd h (by decide)

theorem undScan_digits (ds : List Char) (h : ds.all Char.isDigit = true) :
    undScan ds = true := by
  induction ds with
  | nil => rfl
  | cons c t ih =>
    have hc : c.isDigit = true := List.all_eq_true.mp h c (List.mem_cons_self c t)
    have ht : t.all Char.isDigit = true := by
      rw [List.all_eq_true] at h ⊢
      intro x hx
      exact h x (List.mem_cons_of_mem c hx)
    rw [undScan.eq_def]
    dsimp only
    rw [if_neg (digit_ne_underscore hc), hc, ih ht]
    rfl

theorem filter_underscore_digits (ds : List Char) (h : ds.all Char.isDigit = true) :
    ds.filter (fun x => x != '_') = ds := by
  induction ds with
  | nil => rfl
  | cons c t ih =>
    have hc : c.isDigit = true := List.all_eq_true.mp h c (List.mem_cons_self c t)
    have ht : t.all Char.isDigit = true := by
      rw [List.all_eq_true] at h ⊢
      intro x hx
      exact h x (List.mem_cons_of_mem c hx)
    rw [List.filter_cons]
    have hcu : (c != '_') = true := by
      simp only [bne_iff_ne]
      exact digit_ne_underscore hc
    rw [if_pos hcu, ih ht]

theorem pyDigits?_digits (ds : List Char) (hne : ds ≠ []) (h : ds.all Char.isDigit = true) :
    pyDigits? ds = some (digitsVal ds) := by
  unfold pyDigits? digitGroup?
  cases ds with
  | nil => exact absurd rfl hne
  | cons c t =>
    have hc : c.isDigit = true := List.all_eq_true.mp h c (List.mem_cons_self c t)
    have hcond : (c.isDigit && undScan (c :: t)) = true := by
      rw [hc, undScan_digits (c :: t) h]
      rfl
    show Option.map digitsVal
        (if (c.isDigit && undScan (c :: t)) = true
         then some ((c :: t).filter (fun x => x != '_')) else none)
      = some (digitsVal (c :: t))
    rw [if_pos hcond, filter_underscore_digits (c :: t) h]
    rfl

theorem pyIntChars?_digits (ds : List Char) (hne : ds ≠ []) (h : ds.all Char.isDigit = true) :
    pyIntChars? ds = some ((digitsVal ds : Nat) : Int) := by
  unfold pyIntChars?
  rw [stripWs_digits ds h]
  cases ds with
  | nil => exact absurd rfl hne
  | cons c t =>
    have hc : c.isDigit = true := List.all_eq_true.mp h c (List.mem_cons_self c t)
    split
    next ds2 heq =>
      injection heq with h1 h2
      exact absurd h1 (digit_ne_minus hc)
    next ds2 heq =>
      injection heq with h1 h2
      subst h1
      exact absurd hc (by decide)
    next =>
      rw [pyDigits?_digits (c :: t) hne h]
      rfl

namespace ChatAnalysis

theorem timeSign_minus (rest : List Char) : timeSign ('-' :: rest) = (-1, rest) := rfl

theorem timeSign_other (c : Char) (t : List Char) (h : c ≠ '-') :
    timeSign (c :: t) = (1, c :: t) := by
  unfold timeSign
  split
  next rest heq =>
    injection heq with h1 h2
    exact absurd h1 h
  next => rfl

theorem timeSign_of_digits (mm rest : List Char) (hmm : mm ≠ [])
    (hdm : mm.all Char.isDigit = true) :
    timeSign (mm ++ rest) = (1, mm ++ rest) := by
  cases mm with
  | nil => exact absurd rfl hmm
  | cons c t =>
    have hc : c.isDigit = true := List.all_eq_true.mp hdm c (List.mem_cons_self c t)
    rw [List.cons_append]
    exact timeSign_other c (t ++ rest) (digit_ne_minus hc)

theorem parse_time_parts (cs : List Char) :
    parse_time (TimeVal.str cs) =
      (match splitCh ':' (timeSign cs).2 with
       | [p0, p1] =>
         match pyIntChars? p0, pyIntChars? p1 with
         | some a, some b => (timeSign cs).1 * (a * 60 + b)
         | _, _ => 0
       | [p0, p1, p2] =>
         match pyIntChars? p0, pyIntChars? p1, pyIntChars? p2 with
         | some a, some b, some c => (timeSign cs).1 * (a * 3600 + b * 60 + c)
         | _, _, _ => 0
       | _ => 0) := rfl

theorem parse_time_two (cs mm ss : List Char)
    (hmm : mm ≠ []) (hss : ss ≠ [])
    (hdm : mm.all Char.isDigit = true) (hds : ss.all Char.isDigit = true)
    (hts : (timeSign cs).2 = mm ++ ':' :: ss) :
    parse_time (TimeVal.str cs)
      = (timeSign cs).1 * ((digitsVal mm : Int) * 60 + (digitsVal ss : Int)) := by
  have hmm' : ∀ c ∈ mm, c ≠ ':' :=
    fun c hc => digit_ne_colon (List.all_eq_true.mp hdm c hc)
  have hss' : ∀ c ∈ ss, c ≠ ':' :=
    fun c hc => digit_ne_colon (List.all_eq_true.mp hds c hc)
  rw [parse_time_parts, hts]
  rw [splitCh_append_sep ':' mm ss hmm']
  rw [splitCh_no_sep ':' ss hss']
  show (match pyIntChars? mm, pyIntChars? ss with
    | some a, some b => (timeSign cs).1 * (a * 60 + b)
    | _, _ => 0) = _
  rw [pyIntChars?_digits mm hmm hdm, pyIntChars?_digits ss hss hds]

theorem parse_time_three (cs hh mm ss : List Char)
    (hhh : hh ≠ []) (hmm : mm ≠ []) (hss : ss ≠ [])
    (hdh : hh.all Char.isDigit = true)
    (hdm : mm.all Char.isDigit = true) (hds : ss.all Char.isDigit = true)
    (hts : (timeSign cs).2 = hh ++ ':' :: (mm ++ ':' :: ss)) :
    parse_time (TimeVal.str cs)
      = (timeSign cs).1 * ((digitsVal hh : Int) * 3600
          + (digitsVal mm : Int) * 60 + (digitsVal ss : Int)) := by
  have hhh' : ∀ c ∈ hh, c ≠ ':' :=
    fun c hc => digit_ne_colon (List.all_eq_true.mp hdh c hc)
  have hmm' : ∀ c ∈ mm, c ≠ ':' :=
    fun c hc => digit_ne_colon (List.all_eq_true.mp hdm c hc)
  have hss' : ∀ c ∈ ss, c ≠ ':' :=
    fun c hc => digit_ne_colon (List.all_eq_true.mp hds c hc)
  rw [parse_time_parts, hts]
  rw [splitCh_append_sep ':' hh (mm ++ ':' :: ss) hhh']
  rw [splitCh_append_sep ':' mm ss hmm']
  rw [splitCh_no_sep ':' ss hss']
  show (match pyIntChars? hh, pyIntChars? mm, pyIntChars? ss with
    | some a, some b, some c => (timeSign cs).1 * (a * 3600 + b * 60 + c)
    | _, _, _ => 0) = _
  rw [pyIntChars?_digits hh hhh hdh, pyIntChars?_digits mm hmm hdm,
    pyIntChars?_digits ss hss hds]

/-- Counterexample to C8 as frozen: the claim maps every input other than an
optionally `-`-prefixed `MM:SS` or `HH:MM:SS` string to 0, but the `+`-prefixed
string `"+2:30"` parses to 150, because Python `int()` on the parts tolerates
signs (and whitespace and underscore separators). -/
theorem parse_time_claim_counterexample :
    parse_time (TimeVal.str ['+', '2', ':', '3', '0']) = 150 ∧ (150 : Int) ≠ 0 := by
  decide

/-- C8 (amended): `parse_time` is a total function: a non-string input maps to
0; with the optional leading `-` stripped, a string whose colon-split has
exactly two (three) parts, each accepted by Python `int()`, maps to the signed
value `±(60*MM + SS)` (`±(3600*HH + 60*MM + SS)`) of those parts — in
particular plain digit groups give the digit values — and every other string
maps to 0: wrong number of parts, or any part rejected by `int()`. -/
theorem parse_time_total_spec :
    (parse_time TimeVal.nonstr = 0) ∧
    (∀ (cs p0 p1 : List Char) (a b : Int),
      splitCh ':' (timeSign cs).2 = [p0, p1] →
      pyIntChars? p0 = some a → pyIntChars? p1 = some b →
      parse_time (TimeVal.str cs) = (timeSign cs).1 * (a * 60 + b)) ∧
    (∀ (cs p0 p1 p2 : List Char) (a b c : Int),
      splitCh ':' (timeSign cs).2 = [p0, p1, p2] →
      pyIntChars? p0 = some a → pyIntChars? p1 = some b → pyIntChars? p2 = some c →
      parse_time (TimeVal.str cs) = (timeSign cs).1 * (a * 3600 + b * 60 + c)) ∧
    (∀ mm ss : List Char, mm ≠ [] → ss ≠ [] →
      mm.all Char.isDigit = true → ss.all Char.isDigit = true →
      parse_time (TimeVal.str (mm ++ ':' :: ss))
        = ((60 * digitsVal mm + digitsVal ss : Nat) : Int) ∧
      parse_time (TimeVal.str ('-' :: (mm ++ ':' :: ss)))
        = -((60 * digitsVal mm + digitsVal ss : Nat) : Int)) ∧
    (∀ hh mm ss : List Char, hh ≠ [] → mm ≠ [] → ss ≠ [] →
      hh.all Char.isDigit = true → mm.all Char.isDigit = true →
      ss.all Char.isDigit = true →
      parse_time (TimeVal.str (hh ++ ':' :: (mm ++ ':' :: ss)))
        = ((3600 * digitsVal hh + 60 * digitsVal mm + digitsVal ss : Nat) : Int) ∧
      parse_time (TimeVal.str ('-' :: (hh ++ ':' :: (mm ++ ':' :: ss))))
        = -((3600 * digitsVal hh + 60 * digitsVal mm + digitsVal ss : Nat) : Int)) ∧
    (∀ cs : List Char,
      (splitCh ':' (timeSign cs).2).length ≠ 2 →
      (splitCh ':' (timeSign cs).2).length ≠ 3 →
      parse_time (TimeVal.str cs) = 0) ∧
    (∀ cs p0 p1 : List Char,
      splitCh ':' (timeSign cs).2 = [p0, p1] →
      pyIntChars? p0 = none ∨ pyIntChars? p1 = none →
      parse_time (TimeVal.str cs) = 0) ∧
    (∀ cs p0 p1 p2 : List Char,
      splitCh ':' (timeSign cs).2 = [p0, p1, p2] →
      pyIntChars? p0 = none ∨ pyIntChars? p1 = none ∨ pyIntChars? p2 = none →
      parse_time (TimeVal.str cs) = 0) := by
  refine ⟨rfl, ?_, ?_, ?_, ?_, ?_, ?_, ?_⟩
  · intro cs p0 p1 a b hsp ha hb
    rw [parse_time_parts, hsp]
    show (match pyIntChars? p0, pyIntChars? p1 with
      | some a, some b => (timeSign cs).1 * (a * 60 + b)
      | _, _ => 0) = (timeSign cs).1 * (a * 60 + b)
    rw [ha, hb]
  · intro cs p0 p1 p2 a b c hsp ha hb hc
    rw [parse_time_parts, hsp]
    show (match pyIntChars? p0, pyIntChars? p1, pyIntChars? p2 with
      | some a, some b, some c => (timeSign cs).1 * (a * 3600 + b * 60 + c)
      | _, _, _ => 0) = (timeSign cs).1 * (a * 3600 + b * 60 + c)
    rw [ha, hb, hc]
  · intro mm ss hmm hss hdm hds
    constructor
    · have h1 := parse_time_two (mm ++ ':' :: ss) mm ss hmm hss hdm hds
        (by rw [timeSign_of_digits mm (':' :: ss) hmm hdm])
      rw [h1, timeSign_of_digits mm (':' :: ss) hmm hdm]
      push_cast
      ring
    · have h2 := parse_time_two ('-' :: (mm ++ ':' :: ss)) mm ss hmm hss hdm hds rfl
      rw [h2, timeSign_minus]
      push_cast
      ring
  · intro hh mm ss hhh hmm hss hdh hdm hds
    constructor
    · have h1 := parse_time_three (hh ++ ':' :: (mm ++ ':' :: ss)) hh mm ss hhh hmm hss
        hdh hdm hds
        (by rw [timeSign_of_digits hh (':' :: (mm ++ ':' :: ss)) hhh hdh])
      rw [h1, timeSign_of_digits hh (':' :: (mm ++ ':' :: ss)) hhh hdh]
      push_cast
      ring
    · have h2 := parse_time_three ('-' :: (hh ++ ':' :: (mm ++ ':' :: ss))) hh mm ss
        hhh hmm hss hdh hdm hds rfl
      rw [h2, timeSign_minus]
      push_cast
      ring
  · intro cs h2 h3
    rw [parse_time_parts]
    rcases hsp : splitCh ':' (timeSign cs).2 with _ | ⟨p0, _ | ⟨p1, _ | ⟨p2, _ | ⟨p3, rest⟩⟩⟩⟩
    · rfl
    · rfl
    · exact absurd (by rw [hsp]; rfl) h2
    · exact absurd (by rw [hsp]; rfl) h3
    · rfl
  · intro cs p0 p1 hsp hbad
    rw [parse_time_parts, hsp]
    show (match pyIntChars? p0, pyIntChars? p1 with
      | some a, some b => (timeSign cs).1 * (a * 60 + b)
      | _, _ => 0) = (0 : Int)
    cases ha : pyIntChars? p0 with
    | none =>
      cases hb : pyIntChars? p1 with
      | none => rfl
      | some b => rfl
    | some a =>
      cases hb : pyIntChars? p1 with
      | none => rfl
      | some b =>
        rcases hbad with h | h
        · rw [ha] at h
          exact absurd h (by simp)
        · rw [hb] at h
          exact absurd h (by simp)
  · intro cs p0 p1 p2 hsp hbad
    rw [parse_time_parts, hsp]
    show (match pyIntChars? p0, pyIntChars? p1, pyIntChars? p2 with
      | some a, some b, some c => (timeSign cs).1 * (a * 3600 + b * 60 + c)
      | _, _, _ => 0) = (0 : Int)
    cases ha : pyIntChars? p0 with
    | none =>
      cases hb : pyIntChars? p1 with
      | none =>
        cases hc : pyIntChars? p2 with
        | none => rfl
        | some c => rfl
      | some b =>
        cases hc : pyIntChars? p2 with
        | none => rfl
        | some c => rfl
    | some a =>
      cases hb : pyIntChars? p1 with
      | none =>
        cases hc : pyIntChars? p2 with
        | none => rfl
        | some c => rfl
      | some b =>
        cases hc : pyIntChars? p2 with
        | none => rfl
        | some c =>
          rcases hbad with h | h | h
          · rw [ha] at h
            exact absurd h (by simp)
          · rw [hb] at h
            exact absurd h (by simp)
          · rw [hc] at h
            exact absurd h (by simp)

/-- Witness for C8 at concrete chat time strings, including a signed part
accepted by `int()`. -/
theorem parse_time_total_spec_witness :
    parse_time (TimeVal.str ['2', ':', '3', '0']) = 150 ∧
    parse_time (TimeVal.str ['-', '1', ':', '0', '0']) = -60 ∧
    parse_time (TimeVal.str ['1', ':', '0', '2', ':', '0', '3']) = 3723 ∧
    parse_time (TimeVal.str ['+', '2', ':', '3', '0']) = 150 ∧
    parse_time (TimeVal.str ['a', 'b', ':', 'c', 'd']) = 0 ∧
    parse_time TimeVal.nonstr = 0 := by
  have h := parse_time_total_spec
  refine ⟨?_, ?_, ?_, ?_, ?_, h.1⟩
  · exact ((h.2.2.2.1 ['2'] ['3', '0'] (by decide) (by decide) (by decide) (by decide)).1).trans
      (by decide)
  · exact ((h.2.2.2.1 ['1'] ['0', '0'] (by decide) (by decide) (by decide) (by decide)).2).trans
      (by decide)
  · exact ((h.2.2.2.2.1 ['1'] ['0', '2'] ['0', '3'] (by decide) (by decide) (by decide)
      (by decide) (by decide) (by decide)).1).trans (by decide)
  · exact (h.2.1 ['+', '2', ':', '3', '0'] ['+', '2'] ['3', '0'] 2 30 (by decide) (by decide)
      (by decide)).trans (by decide)
  · exact (h.2.2.2.2.2.2.1 ['a', 'b', ':', 'c', 'd'] ['a', 'b'] ['c', 'd'] (by decide)
      (Or.inl (by decide)))

end ChatAnalysis

theorem numRun_digits (ds : List Char) (h : ds.all Char.isDigit = true) :
    numRun ds = (ds, []) := by
  induction ds with
  | nil => rfl
  | cons c t ih =>
    have hc : c.isDigit = true := List.all_eq_true.mp h c (List.mem_cons_self c t)
    have ht : t.all Char.isDigit = true :=
      List.all_eq_true.mpr fun x hx => List.all_eq_true.mp h x (List.mem_cons_of_mem c hx)
    show (if c.isDigit || c == '_' then
        (c :: (numRun t).1, (numRun t).2) else ([], c :: t)) = (c :: t, [])
    rw [hc, ih ht]
    rfl

namespace YtDlp

theorem pyFloatTruncChars?_digits (ds : List Char) (hne : ds ≠ [])
    (h : ds.all Char.isDigit = true) :
    pyFloatTruncChars? ds = some ((digitsVal ds : Nat) : Int) := by
  cases ds with
  | nil => exact absurd rfl hne
  | cons c t =>
    have hc : c.isDigit = true := List.all_eq_true.mp h c (List.mem_cons_self c t)
    have hsign : signSplit (c :: t) = (1, c :: t) := by
      unfold signSplit
      split
      next r heq =>
        injection heq with h1 h2
        exact absurd h1 (digit_ne_minus hc)
      next r heq =>
        injection heq with h1 h2
        subst h1
        exact absurd hc (by decide)
      next => rfl
    unfold pyFloatTruncChars?
    rw [stripWs_digits (c :: t) h, hsign]
    simp [numRun_digits (c :: t) h, pyDigits?_digits (c :: t) hne h]

/-- C10: `format_duration` maps every falsy input — `None`, the empty string,
and notably the integer 0, a valid zero-second duration — to `"N/A"`; a
positive numeric input, whether an integer or a digit-string, is rendered
`H:MM:SS` when at least one hour and `M:SS` otherwise (hours and minutes
unpadded, trailing components zero-padded), stated over magnitudes below
`2 ^ 53` where Python's float conversion is exact; and a truthy string on
which the numeric conversion `int(float(...))` fails is returned as its
string form (the infinity forms are excluded: on those the source raises an
uncaught `OverflowError` instead of returning). -/
theorem format_duration_spec :
    format_duration PyV.pynone = "N/A" ∧
    format_duration (PyV.pyint 0) = "N/A" ∧
    format_duration (PyV.pystr "") = "N/A" ∧
    (∀ n : Int, 0 < n → n < 2 ^ 53 →
      format_duration (PyV.pyint n) =
        (if 0 < n.toNat / 3600 then
          toString (n.toNat / 3600) ++ ":" ++ pad2 (n.toNat % 3600 / 60)
            ++ ":" ++ pad2 (n.toNat % 60)
         else toString (n.toNat % 3600 / 60) ++ ":" ++ pad2 (n.toNat % 60))) ∧
    (∀ ds : List Char, ds ≠ [] → ds.all Char.isDigit = true →
      digitsVal ds < 2 ^ 53 →
      format_duration (PyV.pystr (String.mk ds)) =
        (if 0 < digitsVal ds / 3600 then
          toString (digitsVal ds / 3600) ++ ":" ++ pad2 (digitsVal ds % 3600 / 60)
            ++ ":" ++ pad2 (digitsVal ds % 60)
         else toString (digitsVal ds % 3600 / 60) ++ ":" ++ pad2 (digitsVal ds % 60))) ∧
    (∀ s : String, s ≠ "" → pyFloatTrunc? s = none → isInfForm s.toList = false →
      format_duration (PyV.pystr s) = s) := by
  refine ⟨rfl, rfl, rfl, ?_, ?_, ?_⟩
  · intro n hn hbound
    obtain ⟨m, rfl⟩ : ∃ m : Nat, n = (m : Int) :=
      ⟨n.toNat, (Int.toNat_of_nonneg (le_of_lt hn)).symm⟩
    have hm : m ≠ 0 := by exact_mod_cast hn.ne'
    rw [format_duration_pos m hm]
    simp [Int.toNat_ofNat]
  · intro ds hne hdig hbound
    have hs : String.mk ds ≠ "" := fun hcon => hne (congrArg String.data hcon)
    have hp : pyFloatTrunc? (String.mk ds) = some ((digitsVal ds : Nat) : Int) :=
      pyFloatTruncChars?_digits ds hne hdig
    exact format_duration_parse (String.mk ds) (digitsVal ds) hs hp
  · intro s hs hf hinf
    have htr : pyTruthy (PyV.pystr s) = true := by
      simp [pyTruthy]
      exact hs
    unfold format_duration
    rw [if_pos htr]
    show (match pyFloatTruncOfV (PyV.pystr s) with
      | none => pyStr (PyV.pystr s)
      | some seconds =>
        if 0 < seconds.ediv 3600 then
          toString (seconds.ediv 3600) ++ ":" ++ pad2Int ((seconds.emod 3600).ediv 60)
            ++ ":" ++ pad2Int ((seconds.emod 3600).emod 60)
        else toString ((seconds.emod 3600).ediv 60) ++ ":" ++ pad2Int ((seconds.emod 3600).emod 60)) = _
    rw [show pyFloatTruncOfV (PyV.pystr s) = pyFloatTrunc? s from rfl, hf]
    rfl

/-- Witness for C10: the zero duration, an integer duration above an hour, an
integer duration below an hour, a numeric digit-string duration, and a
non-numeric string. -/
theorem format_duration_spec_witness :
    format_duration (PyV.pyint 0) = "N/A" ∧
    format_duration (PyV.pyint 3725) = "1:02:05" ∧
    format_duration (PyV.pyint 65) = "1:05" ∧
    format_duration (PyV.pystr "90") = "1:30" ∧
    format_duration (PyV.pystr "abc") = "abc" := by
  have h := format_duration_spec
  refine ⟨h.2.1, ?_, ?_, ?_, h.2.2.2.2.2 "abc" (by decide) (by decide) (by decide)⟩
  · rw [h.2.2.2.1 3725 (by decide) (by decide)]
    decide
  · rw [h.2.2.2.1 65 (by decide) (by decide)]
    decide
  · exact (h.2.2.2.2.1 ['9', '0'] (by decide) (by decide) (by decide)).trans (by decide)

end YtDlp
